import Mathlib

/-!
Verification of the `extract-assets` binary-interpretation pipeline.

The development shallowly embeds the Rust sources of the repository:
segmented virtual-address resolution and the typed structure reader
(`rom.rs`, `addr.rs`), the display-list instruction decoders and
interpreters (`display_list.rs`, `dlist.rs`, `mesh.rs`, `dlist/gltf.rs`),
the skeleton/skin parser and the skin deformation engine (`skeleton.rs`,
`skin.rs`, `skin/gltf.rs`), and the animation decoder
(`skeleton_animation.rs`, `skin/skeleton.rs`).

Modelling conventions:
* Bytes are `Nat` values below 256; multi-byte integers are decoded
  big-endian exactly as the `zerocopy`/`byteorder` readers do.
* Signed 16-bit quantities are carried as `Int` with explicit
  two's-complement reinterpretation (`toI16`) where the source casts.
* A fallible Rust computation is embedded as a `RustResult`: `ok` mirrors
  `Ok`, `error` mirrors `Err` (with a structured error standing for the
  `anyhow` error value), `panicked` marks executions in which the Rust
  code panics (slice-index or `unwrap` failures), and `diverged` marks
  executions in which a source loop does not terminate (it is produced
  only when a fuel bound is exhausted).
* `f32` arithmetic in the skin deformation engine is modelled as exact
  rational arithmetic over `ℚ`; the claims under verification concern
  the write structure of the algorithm, not floating-point rounding.
-/

set_option autoImplicit false

namespace Armos

/-- Structured stand-in for the `anyhow` error values produced by the
decoding pipeline. -/
inductive RomErr where
  | segmentUnset : Nat → RomErr
  | readFailed : RomErr
  | unknownOpcode : Nat → RomErr
  deriving DecidableEq, Repr

/-- Outcome of a fallible piece of Rust code: an `Ok` value, an `Err`
value, a panic, or non-termination (fuel exhaustion in the embedding). -/
inductive RustResult (α : Type) where
  | ok : α → RustResult α
  | error : RomErr → RustResult α
  | panicked : RustResult α
  | diverged : RustResult α
  deriving DecidableEq, Repr

namespace RustResult

def map {α β : Type} (f : α → β) : RustResult α → RustResult β
  | .ok a => .ok (f a)
  | .error e => .error e
  | .panicked => .panicked
  | .diverged => .diverged

def bind {α β : Type} : RustResult α → (α → RustResult β) → RustResult β
  | .ok a, f => f a
  | .error e, _ => .error e
  | .panicked, _ => .panicked
  | .diverged, _ => .diverged

/-- Mirrors `Result::into_iter().collect::<Option<_>>`-style projection:
the `Ok` value, if any. -/
def toOption {α : Type} : RustResult α → Option α
  | .ok a => some a
  | _ => none

def isOk {α : Type} : RustResult α → Bool
  | .ok _ => true
  | _ => false

end RustResult

instance : Monad RustResult where
  pure := .ok
  bind := RustResult.bind

instance : LawfulMonad RustResult :=
  LawfulMonad.mk' RustResult
    (fun x => by cases x <;> rfl)
    (fun _ _ => rfl)
    (fun x _ _ => by cases x <;> rfl)

/-- Big-endian decoding of a byte list (missing bytes read as 0; all
callers establish sufficient length before decoding). -/
def beNat : List Nat → Nat
  | [] => 0
  | b :: rest => b * 256 ^ rest.length + beNat rest

def be16 (bs : List Nat) : Nat := beNat (bs.take 2)

def be32 (bs : List Nat) : Nat := beNat (bs.take 4)

def be64 (bs : List Nat) : Nat := beNat (bs.take 8)

/-- Two's-complement reinterpretation of 16 bits as a signed value,
mirroring Rust `as i16` on a `u16`. -/
def toI16 (n : Nat) : Int :=
  if n % 65536 < 32768 then ((n % 65536 : Nat) : Int) else ((n % 65536 : Nat) : Int) - 65536

/-- Wrapping of a signed value into `i16` range, mirroring Rust release
semantics of `i16` arithmetic. -/
def wrapI16 (z : Int) : Int := (z + 32768) % 65536 - 32768

/-- `RawVirtAddr::segment_number` (`addr.rs`): `(a << 4) >> 28` on `u32`,
i.e. bits 24–27. -/
def segment_number (a : Nat) : Nat := a % 4294967296 * 16 % 4294967296 / 268435456

/-- `RawVirtAddr::segment_offset` (`addr.rs`): `a & 0x00FFFFFF`. -/
def segment_offset (a : Nat) : Nat := a % 16777216

/-- `impl Add<i32> for RawVirtAddr` (`addr.rs`): wrapping 32-bit addition
of a signed displacement. -/
def addr_add (a : Nat) (d : Int) : Nat :=
  ((((a % 4294967296 : Nat) : Int) + d) % 4294967296).toNat

/-- `rom::Reader`: a table of 16 optional byte buffers. -/
structure Reader where
  segments : List (Option (List Nat))
  deriving DecidableEq, Repr

namespace Reader

def new : Reader := ⟨List.replicate 16 none⟩

/-- `Reader::set_segment`. -/
def set_segment (r : Reader) (seg : Nat) (data : Option (List Nat)) : Reader :=
  ⟨r.segments.set seg data⟩

def seg_get (r : Reader) (n : Nat) : Option (List Nat) :=
  r.segments.getD n none

/-- `Reader::slice_from` (`rom.rs`): looks up the segment selected by the
address, errors if the segment is unset, and otherwise takes the Rust
slice `&data[offset..]` — which returns the suffix when
`offset <= data.len()` and panics when `offset > data.len()`. -/
def slice_from (r : Reader) (addr : Nat) : RustResult (List Nat) :=
  match r.seg_get (segment_number addr) with
  | none => .error (.segmentUnset (segment_number addr))
  | some data =>
    if segment_offset addr ≤ data.length then .ok (data.drop (segment_offset addr))
    else .panicked

end Reader

/-- A fixed-layout record type in the sense of `zerocopy::FromBytes`: a
byte size together with a total decoding function applied to that many
bytes. (The runtime alignment check of `LayoutVerified`, which depends
on allocator addresses outside this model, is not represented.) -/
structure Decoder (α : Type) where
  size : Nat
  dec : List Nat → α

namespace Reader

/-- `Reader::read` (`rom.rs`): resolve the address, then decode one
record from the prefix of the slice, failing when fewer than `size`
bytes remain (`LayoutVerified::new_from_prefix` returning `None`). -/
def read {α : Type} (r : Reader) (d : Decoder α) (addr : Nat) : RustResult α :=
  match r.slice_from addr with
  | .ok bs =>
    if d.size ≤ bs.length then .ok (d.dec (bs.take d.size)) else .error .readFailed
  | .error e => .error e
  | .panicked => .panicked
  | .diverged => .diverged

/-- `Reader::read_slice` (`rom.rs`): resolve the address, then decode
`count` consecutive records from the prefix of the slice, failing when
fewer than `count * size` bytes remain. -/
def read_slice {α : Type} (r : Reader) (d : Decoder α) (addr : Nat) (count : Nat) :
    RustResult (List α) :=
  match r.slice_from addr with
  | .ok bs =>
    if count * d.size ≤ bs.length then
      .ok ((List.range count).map fun i => d.dec ((bs.drop (i * d.size)).take d.size))
    else .error .readFailed
  | .error e => .error e
  | .panicked => .panicked
  | .diverged => .diverged

end Reader

/-- Decoder for a stored 4-byte big-endian virtual address
(`RawVirtAddr` via `zerocopy::U32<BigEndian>`). -/
def addrDecoder : Decoder Nat := ⟨4, be32⟩

/-- Decoder for a big-endian `I16`. -/
def i16Decoder : Decoder Int := ⟨2, fun bs => toI16 (be16 bs)⟩

/-- Decoder for a big-endian `U16`. -/
def u16Decoder : Decoder Nat := ⟨2, be16⟩

/-- The element-wise consumption performed by
`Reader::ptr_slice_iter`'s `flat_map(|addr| self.read::<T>(*addr).into_iter())`
(`rom.rs`): each stored address is dereferenced with `Reader::read`; an
`Ok` value is yielded, an `Err` yields nothing (`Result::into_iter` is
empty on `Err`), and a panic unwinds the whole iteration. -/
def collect_reads {α : Type} (r : Reader) (d : Decoder α) : List Nat → RustResult (List α)
  | [] => .ok []
  | a :: rest =>
    match r.read d a with
    | .ok v => (collect_reads r d rest).map (fun l => v :: l)
    | .error _ => collect_reads r d rest
    | .panicked => .panicked
    | .diverged => .diverged

/-- `Reader::ptr_slice_iter` (`rom.rs`): read `count` consecutive stored
addresses, then dereference each through `collect_reads`. -/
def Reader.ptr_slice_iter {α : Type} (r : Reader) (d : Decoder α) (addr : Nat) (count : Nat) :
    RustResult (List α) :=
  match r.read_slice addrDecoder addr count with
  | .ok addrs => collect_reads r d addrs
  | .error e => .error e
  | .panicked => .panicked
  | .diverged => .diverged

/-- The closed set of recognized display-list opcodes, shared by the two
revisions of the decoder (`display_list.rs` and `dlist.rs`). -/
inductive Opcode where
  | VTX
  | TRI1
  | TRI2
  | TEXTURE
  | GEOMETRYMODE
  | ENDDL
  | SETOTHERMODE_L
  | SETOTHERMODE_H
  | RDPLOADSYNC
  | RDPPIPESYNC
  | RDPTILESYNC
  | LOADTLUT
  | SETTILESIZE
  | LOADBLOCK
  | SETTILE
  | SETPRIMCOLOR
  | SETCOMBINE
  | SETTIMG
  deriving DecidableEq, Repr

/-- The opcode-byte table (discriminant values of `display_list::Opcode`
and the match arms of `dlist::Opcode::from_data`). -/
def opcode_from_byte (b : Nat) : Option Opcode :=
  if b = 0x01 then some .VTX
  else if b = 0x05 then some .TRI1
  else if b = 0x06 then some .TRI2
  else if b = 0xD7 then some .TEXTURE
  else if b = 0xD9 then some .GEOMETRYMODE
  else if b = 0xDF then some .ENDDL
  else if b = 0xE2 then some .SETOTHERMODE_L
  else if b = 0xE3 then some .SETOTHERMODE_H
  else if b = 0xE6 then some .RDPLOADSYNC
  else if b = 0xE7 then some .RDPPIPESYNC
  else if b = 0xE8 then some .RDPTILESYNC
  else if b = 0xF0 then some .LOADTLUT
  else if b = 0xF2 then some .SETTILESIZE
  else if b = 0xF3 then some .LOADBLOCK
  else if b = 0xF5 then some .SETTILE
  else if b = 0xFA then some .SETPRIMCOLOR
  else if b = 0xFC then some .SETCOMBINE
  else if b = 0xFD then some .SETTIMG
  else none

/-- Top byte of an 8-byte instruction word: `self.0 >> 56` on `u64`. -/
def instr_top (w : Nat) : Nat := w % 18446744073709551616 / 72057594037927936

/-- `display_list::Instruction::opcode`: `Opcode::from_u64` on the top
byte; `none` marks the `panic!` taken on an unrecognized byte. -/
def instruction_opcode (w : Nat) : Option Opcode := opcode_from_byte (instr_top w)

/-- `dlist::Opcode::from_data`: the same table, but an unrecognized byte
is surfaced as an `Err` value. -/
def Opcode.from_data (w : Nat) : RustResult Opcode :=
  match opcode_from_byte (instr_top w) with
  | some o => .ok o
  | none => .error (.unknownOpcode (instr_top w))

/-- `display_list::Vtx` operand accessors. An 8-bit field extraction
`(w & (0xFF << s)) >> s` is written `w / 2^s % 256`, which agrees with
the mask-and-shift for every `w`. -/
def Vtx.addr (w : Nat) : Nat := w % 4294967296

/-- `(w & 0x000FF00000000000) >> 44`. -/
def Vtx.nn (w : Nat) : Nat := w / 17592186044416 % 256

/-- `(w & 0x000000FF00000000) >> 32`. -/
def Vtx.aa (w : Nat) : Nat := w / 4294967296 % 256

/-- `display_list::Tri1` operand accessors (also the inline extraction in
`dlist/gltf.rs`): extract the 8-bit field, then halve by integer
division. `(w & 0x00FF000000000000) >> 48`, halved. -/
def Tri1.aa (w : Nat) : Nat := w / 281474976710656 % 256 / 2

/-- `(w & 0x0000FF0000000000) >> 40`, halved. -/
def Tri1.bb (w : Nat) : Nat := w / 1099511627776 % 256 / 2

/-- `(w & 0x000000FF00000000) >> 32`, halved. -/
def Tri1.cc (w : Nat) : Nat := w / 4294967296 % 256 / 2

/-- `display_list::Tri2` operand accessors, same fields as `Tri1` plus
the second triangle's three low fields. -/
def Tri2.aa (w : Nat) : Nat := w / 281474976710656 % 256 / 2

def Tri2.bb (w : Nat) : Nat := w / 1099511627776 % 256 / 2

def Tri2.cc (w : Nat) : Nat := w / 4294967296 % 256 / 2

/-- `(w & 0x0000000000FF0000) >> 16`, halved. -/
def Tri2.dd (w : Nat) : Nat := w / 65536 % 256 / 2

/-- `(w & 0x000000000000FF00) >> 8`, halved. -/
def Tri2.ee (w : Nat) : Nat := w / 256 % 256 / 2

/-- `(w & 0x00000000000000FF) >> 0`, halved. -/
def Tri2.ff (w : Nat) : Nat := w % 256 / 2

/-- The full iteration of `display_list::InstructionStream` (`next` until
`None`): with fewer than 8 bytes left the `LayoutVerified` prefix parse
fails and iteration stops; otherwise the 8-byte big-endian word is
decoded (`Instruction::new` panics on an unrecognized opcode); an `ENDDL`
word is yielded and the remaining slice is replaced by the empty slice,
so no byte past it is ever read. -/
def stream_instrs : List Nat → RustResult (List Nat)
  | b0 :: b1 :: b2 :: b3 :: b4 :: b5 :: b6 :: b7 :: rest =>
    let w := be64 [b0, b1, b2, b3, b4, b5, b6, b7]
    match instruction_opcode w with
    | none => .panicked
    | some .ENDDL => .ok [w]
    | some _ => (stream_instrs rest).map (fun ws => w :: ws)
  | _ => .ok []

/-- Modelled from the spec: the primitive byte read of `RomReader`, the
new-revision reader type whose definition is not among the provided
sources (only its callers in `dlist.rs`, `skin.rs` and
`skin/skeleton.rs` are). Per §4.1/§7 of the specification a read
resolves the address through the segment table and fails with an error
(`SegmentUnset`, `AddressOutOfRange`, `Truncated`) — never a panic. -/
def RomReader.read_bytes (r : Reader) (addr : Nat) (n : Nat) : RustResult (List Nat) :=
  match r.seg_get (segment_number addr) with
  | none => .error (.segmentUnset (segment_number addr))
  | some data =>
    if segment_offset addr + n ≤ data.length then
      .ok ((data.drop (segment_offset addr)).take n)
    else .error .readFailed

/-- Modelled from the spec: `RomReader::read_u64` after a `seek`. -/
def RomReader.read_u64 (r : Reader) (addr : Nat) : RustResult Nat :=
  (RomReader.read_bytes r addr 8).map be64

/-- Modelled from the spec: `RomReader::read_i16` after a `seek`
(big-endian signed 16-bit). -/
def RomReader.read_i16 (r : Reader) (addr : Nat) : RustResult Int :=
  (RomReader.read_bytes r addr 2).map (fun bs => toI16 (be16 bs))

/-- `dlist::InstrIter::next`: read the 8-byte word at the current
position, advance by 8, decode via `Opcode::from_data` (propagating its
error), and stop — without yielding the instruction — on `ENDDL`. -/
def instr_iter_next (r : Reader) (pos : Nat) : RustResult (Option (Opcode × Nat)) :=
  match RomReader.read_u64 r pos with
  | .ok w =>
    match Opcode.from_data w with
    | .ok o => if o = Opcode.ENDDL then .ok none else .ok (some (o, w))
    | .error e => .error e
    | .panicked => .panicked
    | .diverged => .diverged
  | .error e => .error e
  | .panicked => .panicked
  | .diverged => .diverged

/-- The full iteration of `dlist::InstrIter` (`next` until `Ok(None)`),
with a fuel bound standing in for non-termination. -/
def iter_instrs (r : Reader) : Nat → Nat → RustResult (List (Opcode × Nat))
  | _, 0 => .diverged
  | pos, fuel + 1 =>
    match instr_iter_next r pos with
    | .ok none => .ok []
    | .ok (some ow) => (iter_instrs r (pos + 8) fuel).map (fun rest => ow :: rest)
    | .error e => .error e
    | .panicked => .panicked
    | .diverged => .diverged

/-- `rom::Vtx` (the old-revision 16-byte vertex record; also
`dlist::Vtx`): three big-endian `I16` position words, a flag, two
texture coordinates, four colour/normal bytes. -/
structure VtxRec where
  pos : Int × Int × Int
  flag : Int
  tpos : Int × Int
  cn : List Nat
  deriving DecidableEq, Repr

/-- `Vtx::default()`: all fields zero. -/
def VtxRec.zero : VtxRec := ⟨(0, 0, 0), 0, (0, 0), [0, 0, 0, 0]⟩

/-- Decoder for `rom::Vtx` via `zerocopy::FromBytes`. -/
def vtxDecoder : Decoder VtxRec :=
  ⟨16, fun bs =>
    { pos := (toI16 (be16 bs), toI16 (be16 (bs.drop 2)), toI16 (be16 (bs.drop 4)))
      flag := toI16 (be16 (bs.drop 6))
      tpos := (toI16 (be16 (bs.drop 8)), toI16 (be16 (bs.drop 10)))
      cn := (bs.drop 12).take 4 }⟩

/-- Big-endian two's-complement serialization of an `i16`, as written by
`zerocopy::AsBytes` for `I16<BigEndian>` and by `Vtx::write`. -/
def i16_bytes (z : Int) : List Nat :=
  [(z % 65536).toNat / 256, (z % 65536).toNat % 256]

/-- Byte serialization of a vertex record (`zerocopy::AsBytes` for
`rom::Vtx`; identically `dlist::Vtx::write`, which writes big-endian per
`rom::Endian` — modelled from the spec as big-endian, `rom::Endian`'s
definition not being among the provided sources). -/
def VtxRec.to_bytes (v : VtxRec) : List Nat :=
  i16_bytes v.pos.1 ++ i16_bytes v.pos.2.1 ++ i16_bytes v.pos.2.2 ++ i16_bytes v.flag ++
    i16_bytes v.tpos.1 ++ i16_bytes v.tpos.2 ++ v.cn.take 4

/-- `mesh::Vertex` (also `dlist::gltf::Vertex`): the position promoted to
`f32` by direct numeric conversion, which is exact on 16-bit integers —
carried as `Int`. -/
structure Vertex where
  pos : Int × Int × Int
  deriving DecidableEq, Repr

def VtxRec.toVertex (v : VtxRec) : Vertex := ⟨v.pos⟩

/-- `mesh::Mesh`. -/
structure Mesh where
  indices : List Nat
  vertices : List Vertex
  deriving DecidableEq, Repr

def Mesh.empty : Mesh := ⟨[], []⟩

/-- One application of the closure returned by `mesh::fold`: the
accumulator is the mesh plus the captured `vertex_offset`. On `VTX` the
offset is set to the current vertex count, then the addressed records
are read and appended; on `TRI1`/`TRI2` the halved operands, shifted by
the offset, are appended to the index list; all other opcodes are
no-ops; `Instruction::opcode` panics on an unrecognized byte. -/
def mesh_fold_step (r : Reader) (acc : Mesh × Nat) (w : Nat) : RustResult (Mesh × Nat) :=
  match instruction_opcode w with
  | none => .panicked
  | some .VTX =>
    let off2 := acc.1.vertices.length
    match r.read_slice vtxDecoder (Vtx.addr w) (Vtx.nn w) with
    | .ok vtxs => .ok ({ acc.1 with vertices := acc.1.vertices ++ vtxs.map VtxRec.toVertex }, off2)
    | .error e => .error e
    | .panicked => .panicked
    | .diverged => .diverged
  | some .TRI1 =>
    .ok ({ acc.1 with
      indices := acc.1.indices ++
        [acc.2 + Tri1.aa w, acc.2 + Tri1.bb w, acc.2 + Tri1.cc w] }, acc.2)
  | some .TRI2 =>
    .ok ({ acc.1 with
      indices := acc.1.indices ++
        [acc.2 + Tri2.aa w, acc.2 + Tri2.bb w, acc.2 + Tri2.cc w,
         acc.2 + Tri2.dd w, acc.2 + Tri2.ee w, acc.2 + Tri2.ff w] }, acc.2)
  | some _ => .ok acc

/-- `try_fold` of `mesh::fold` over an already-decoded word list. -/
def mesh_fold (r : Reader) : Mesh × Nat → List Nat → RustResult (Mesh × Nat)
  | acc, [] => .ok acc
  | acc, w :: ws => (mesh_fold_step r acc w).bind (fun acc2 => mesh_fold r acc2 ws)

/-- The fused stream-and-fold loop of `read_normal_skin_limb` /
`read_animated_skin_limb` (`skeleton.rs`): `InstructionStream` is
consumed lazily by `try_fold`, so decoding (and its panic) happens
instruction by instruction, and the `ENDDL` instruction is folded (as a
no-op) before iteration stops. -/
def run_dlist (r : Reader) : Mesh × Nat → List Nat → RustResult (Mesh × Nat)
  | acc, b0 :: b1 :: b2 :: b3 :: b4 :: b5 :: b6 :: b7 :: rest =>
    let w := be64 [b0, b1, b2, b3, b4, b5, b6, b7]
    match instruction_opcode w with
    | none => .panicked
    | some o =>
      (mesh_fold_step r acc w).bind fun acc2 =>
        if o = Opcode.ENDDL then .ok acc2 else run_dlist r acc2 rest
  | acc, _ => .ok acc

/-- `read_normal_skin_limb` (`skeleton.rs`): resolve the limb's display
list address and fold the instruction stream into a mesh. -/
def read_normal_skin_limb (r : Reader) (segment : Nat) : RustResult Mesh :=
  match r.slice_from segment with
  | .ok bs => (run_dlist r (Mesh.empty, 0) bs).map (fun acc => acc.1)
  | .error e => .error e
  | .panicked => .panicked
  | .diverged => .diverged

/-- Interpreter state of `dlist::gltf::Interpreter`. -/
structure InterpState where
  iter_pos : Nat
  tris : List (Nat × Nat × Nat)
  current_vtx_addr : Option Nat
  done : Bool
  indices : List Nat
  vertices : List Vertex
  deriving DecidableEq, Repr

/-- `Interpreter::new`. -/
def InterpState.start (addr : Nat) : InterpState := ⟨addr, [], none, false, [], []⟩

/-- `self.tris.iter().flat_map(..).max()` in `Interpreter::flush`. -/
def max_tri_index (tris : List (Nat × Nat × Nat)) : Option Nat :=
  (tris.flatMap (fun t => [t.1, t.2.1, t.2.2])).max?

/-- Modelled from the spec: `RomReader::segment_iter::<dlist::Vtx>`
taken `n` records — consecutive 16-byte records (`dlist::Vtx::SIZE`)
starting at `addr`, of which `dlist::Vtx::read` reads the three leading
position words, leaving the rest default; each record read is fallible
and `Interpreter::flush` short-circuits on the first failure. -/
def segment_iter_vtx (r : Reader) (addr : Nat) : Nat → RustResult (List VtxRec)
  | 0 => .ok []
  | n + 1 =>
    match RomReader.read_bytes r addr 6 with
    | .ok bs =>
      (segment_iter_vtx r (addr_add addr 16) n).map
        (fun rest =>
          { VtxRec.zero with
            pos := (toI16 (be16 bs), toI16 (be16 (bs.drop 2)), toI16 (be16 (bs.drop 4))) } :: rest)
    | .error e => .error e
    | .panicked => .panicked
    | .diverged => .diverged

/-- `Interpreter::flush`: replace the current vertex source with the next
one; if there was a previous source and buffered triangles, load as many
records as the highest referenced index requires, append them, then
append the buffered triangles' indices shifted by the vertex count that
was accumulated before this load. -/
def Interp.flush (r : Reader) (s : InterpState) (next_vtx : Option Nat) :
    RustResult InterpState :=
  let s1 := { s with current_vtx_addr := next_vtx }
  match s.current_vtx_addr with
  | none => .ok s1
  | some vtx_addr =>
    match max_tri_index s.tris with
    | none => .ok s1
    | some mx =>
      let base := s.vertices.length
      match segment_iter_vtx r vtx_addr (mx + 1) with
      | .ok vtxs =>
        .ok { s1 with
          vertices := s.vertices ++ vtxs.map VtxRec.toVertex
          indices := s.indices ++
            s.tris.flatMap (fun t => [base + t.1, base + t.2.1, base + t.2.2])
          tris := [] }
      | .error e => .error e
      | .panicked => .panicked
      | .diverged => .diverged

/-- `Interpreter::next`: one step of the display-list state machine; the
returned `Bool` is the `Ok(true)`/`Ok(false)` continuation flag. -/
def Interp.next (r : Reader) (s : InterpState) : RustResult (InterpState × Bool) :=
  if s.done then .ok (s, false)
  else
    match instr_iter_next r s.iter_pos with
    | .ok none =>
      let s1 := { s with iter_pos := s.iter_pos + 8, done := true }
      (Interp.flush r s1 none).map (fun s2 => (s2, true))
    | .ok (some (o, w)) =>
      let s1 := { s with iter_pos := s.iter_pos + 8 }
      match o with
      | .VTX => (Interp.flush r s1 (some (Vtx.addr w))).map (fun s2 => (s2, true))
      | .TRI1 =>
        .ok ({ s1 with tris := s1.tris ++ [(Tri1.aa w, Tri1.bb w, Tri1.cc w)] }, true)
      | .TRI2 =>
        .ok ({ s1 with
          tris := s1.tris ++
            [(Tri2.aa w, Tri2.bb w, Tri2.cc w), (Tri2.dd w, Tri2.ee w, Tri2.ff w)] }, true)
      | _ => .ok (s1, true)
    | .error e => .error e
    | .panicked => .panicked
    | .diverged => .diverged

/-- Two's-complement reinterpretation of 8 bits as a signed value. -/
def toI8 (n : Nat) : Int :=
  if n % 256 < 128 then ((n % 256 : Nat) : Int) else ((n % 256 : Nat) : Int) - 256

/-- Two's-complement reinterpretation of 32 bits as a signed value. -/
def toI32 (n : Nat) : Int :=
  if n % 4294967296 < 2147483648 then ((n % 4294967296 : Nat) : Int)
  else ((n % 4294967296 : Nat) : Int) - 4294967296

/-- `rom::SkinLimb` (0x10 bytes): joint offset, child and sibling
indices, discriminant, payload address. -/
structure SkinLimbRec where
  joint_pos : Int × Int × Int
  child : Nat
  sibling : Nat
  segment_type : Int
  segment : Nat
  deriving DecidableEq, Repr

def skinLimbDecoder : Decoder SkinLimbRec :=
  ⟨16, fun bs =>
    { joint_pos := (toI16 (be16 bs), toI16 (be16 (bs.drop 2)), toI16 (be16 (bs.drop 4)))
      child := bs.getD 6 0
      sibling := bs.getD 7 0
      segment_type := toI32 (be32 (bs.drop 8))
      segment := be32 (bs.drop 12) }⟩

/-- `rom::SkinAnimatedLimbData` (0xC bytes). -/
structure SkinAnimatedLimbDataRec where
  total_vtx_count : Nat
  limb_modif_count : Nat
  limb_modifications : Nat
  dlist : Nat
  deriving DecidableEq, Repr

def skinAnimatedLimbDataDecoder : Decoder SkinAnimatedLimbDataRec :=
  ⟨12, fun bs => ⟨be16 bs, be16 (bs.drop 2), be32 (bs.drop 4), be32 (bs.drop 8)⟩⟩

/-- `rom::SkinLimbModif` (0x10 bytes, including the two explicit padding
bytes after `unk_4`). -/
structure SkinLimbModifRec where
  vtx_count : Nat
  transform_count : Nat
  unk_4 : Nat
  skin_vertices : Nat
  limb_transformations : Nat
  deriving DecidableEq, Repr

def skinLimbModifDecoder : Decoder SkinLimbModifRec :=
  ⟨16, fun bs => ⟨be16 bs, be16 (bs.drop 2), be16 (bs.drop 4), be32 (bs.drop 8), be32 (bs.drop 12)⟩⟩

/-- `rom::SkinTransformation` (0xA bytes: `limb_index` padded to 2
bytes, three `I16` components, scale byte, trailing padding). -/
structure SkinTransformation where
  limb_index : Nat
  x : Int
  y : Int
  z : Int
  scale : Nat
  deriving DecidableEq, Repr

def skinTransformationDecoder : Decoder SkinTransformation :=
  ⟨10, fun bs =>
    ⟨bs.getD 0 0, toI16 (be16 (bs.drop 2)), toI16 (be16 (bs.drop 4)), toI16 (be16 (bs.drop 6)),
      bs.getD 8 0⟩⟩

/-- `rom::SkinVertex` (0xA bytes). -/
structure SkinVertex where
  index : Nat
  s : Int
  t : Int
  norm : Int × Int × Int
  alpha : Nat
  deriving DecidableEq, Repr

def skinVertexDecoder : Decoder SkinVertex :=
  ⟨10, fun bs =>
    ⟨be16 bs, toI16 (be16 (bs.drop 2)), toI16 (be16 (bs.drop 4)),
      (toI8 (bs.getD 6 0), toI8 (bs.getD 7 0), toI8 (bs.getD 8 0)), bs.getD 9 0⟩⟩

/-- A decoded `LimbModification` (the form `skin.rs` stores and
`skin/gltf.rs` consumes). -/
structure SkinLimbModif where
  unk_4 : Nat
  skin_vertices : List SkinVertex
  limb_transformations : List SkinTransformation
  deriving DecidableEq, Repr

/-- `apply_limb_transformations` (`skeleton.rs`): fold the transformation
list, adding each component scaled by `scale * 0.01`; `f32` arithmetic
modelled as exact rational arithmetic. -/
def apply_limb_transformations (ts : List SkinTransformation) : ℚ × ℚ × ℚ :=
  ts.foldl
    (fun accum t =>
      let scale : ℚ := (t.scale : ℚ) * (1 / 100)
      (accum.1 + (t.x : ℚ) * scale, accum.2.1 + (t.y : ℚ) * scale,
        accum.2.2 + (t.z : ℚ) * scale))
    (0, 0, 0)

/-- Truncation toward zero of a rational (for a negative value the
ceiling, written through the floor of the negation). -/
def rat_trunc (q : ℚ) : Int := if 0 ≤ q then ⌊q⌋ else -⌊-q⌋

/-- Rust `f32 as i16`: truncation toward zero, saturating at the i16
bounds. -/
def f32_as_i16 (q : ℚ) : Int := max (-32768) (min 32767 (rat_trunc q))

def vtx_point_i16 (ts : List SkinTransformation) : Int × Int × Int :=
  let p := apply_limb_transformations ts
  (f32_as_i16 p.1, f32_as_i16 p.2.1, f32_as_i16 p.2.2)

/-- The zero-filled vertex buffer `vec![Vtx::default(); total_vtx_count]`. -/
def zero_vtx_buffer (n : Nat) : List VtxRec := List.replicate n VtxRec.zero

/-- The inner write loop shared by `read_animated_skin_limb`
(`skeleton.rs`) and `gltf_from_skeleton` (`skin/gltf.rs`): each listed
slot's position is overwritten with the given point; an out-of-bounds
index is the Rust slice-index panic. -/
def write_skin_vertices (buf : List VtxRec) (p : Int × Int × Int) :
    List SkinVertex → RustResult (List VtxRec)
  | [] => .ok buf
  | sv :: rest =>
    match buf[sv.index]? with
    | some v => write_skin_vertices (buf.set sv.index { v with pos := p }) p rest
    | none => .panicked

/-- One `LimbModification` application as `read_animated_skin_limb`
performs it: compute the accumulated offset, truncate, overwrite every
listed vertex — with no special case on the transformation count. -/
def skeleton_apply_modif (buf : List VtxRec) (m : SkinLimbModif) : RustResult (List VtxRec) :=
  write_skin_vertices buf (vtx_point_i16 m.limb_transformations) m.skin_vertices

/-- One `LimbModification` application as `gltf_from_skeleton`
(`skin/gltf.rs`) performs it: a modification whose transformation list
has exactly one element is skipped entirely (`if .. == 1 {} else ..`). -/
def gltf_apply_modif (buf : List VtxRec) (m : SkinLimbModif) : RustResult (List VtxRec) :=
  if m.limb_transformations.length = 1 then .ok buf
  else write_skin_vertices buf (vtx_point_i16 m.limb_transformations) m.skin_vertices

/-- The vertex-buffer construction loop of `read_animated_skin_limb`. -/
def skeleton_build_vertex_buffer (total : Nat) (modifs : List SkinLimbModif) :
    RustResult (List VtxRec) :=
  modifs.foldlM skeleton_apply_modif (zero_vtx_buffer total)

/-- The vertex-buffer construction loop of `gltf_from_skeleton`. -/
def gltf_build_vertex_buffer (total : Nat) (modifs : List SkinLimbModif) :
    RustResult (List VtxRec) :=
  modifs.foldlM gltf_apply_modif (zero_vtx_buffer total)

/-- The body of the `for modif in limb_modifs` loop of
`read_animated_skin_limb`: read the transformation and vertex tables of
one modification record, then apply it. -/
def animated_limb_modif_step (r : Reader) (buf : List VtxRec) (m : SkinLimbModifRec) :
    RustResult (List VtxRec) :=
  match r.read_slice skinTransformationDecoder m.limb_transformations m.transform_count with
  | .ok ts =>
    match r.read_slice skinVertexDecoder m.skin_vertices m.vtx_count with
    | .ok svs => skeleton_apply_modif buf ⟨m.unk_4, svs, ts⟩
    | .error e => .error e
    | .panicked => .panicked
    | .diverged => .diverged
  | .error e => .error e
  | .panicked => .panicked
  | .diverged => .diverged

/-- The structure-reading and buffer-building prefix of
`read_animated_skin_limb`: decode the `SkinAnimatedLimbData`, its
modification records, and fold them over the zeroed buffer. -/
def animated_limb_vtx_buffer (r : Reader) (limb_segment : Nat) :
    RustResult (SkinAnimatedLimbDataRec × List VtxRec) :=
  match r.read skinAnimatedLimbDataDecoder limb_segment with
  | .ok data =>
    match r.read_slice skinLimbModifDecoder data.limb_modifications data.limb_modif_count with
    | .ok modif_recs =>
      ((modif_recs.foldlM (animated_limb_modif_step r)
        (zero_vtx_buffer data.total_vtx_count)).map (fun buf => (data, buf)))
    | .error e => .error e
    | .panicked => .panicked
    | .diverged => .diverged
  | .error e => .error e
  | .panicked => .panicked
  | .diverged => .diverged

/-- `Segment::IconItemStatic` discriminant. -/
def iconItemStatic : Nat := 8

/-- The reader that `read_animated_skin_limb` interprets the display
list against: a clone of the caller's reader with the serialized
synthetic vertex buffer installed in `Segment::IconItemStatic`
(`reader.clone()` followed by `set_segment`). -/
def synth_reader (r : Reader) (limb_segment : Nat) : RustResult Reader :=
  (animated_limb_vtx_buffer r limb_segment).map
    (fun db => r.set_segment iconItemStatic (some (db.2.flatMap VtxRec.to_bytes)))

/-- `read_animated_skin_limb` (`skeleton.rs`), in explicit state-passing
form: the second component is the reader the caller sees after the call
— the function borrows the reader immutably (`&rom::Reader`), clones it,
and installs the synthetic segment only in the clone, so the caller's
reader is returned unchanged. -/
def read_animated_skin_limb (r : Reader) (limb_segment : Nat) : RustResult Mesh × Reader :=
  (match synth_reader r limb_segment with
  | .ok r2 =>
    (match animated_limb_vtx_buffer r limb_segment with
    | .ok db =>
      (match r2.slice_from db.1.dlist with
      | .ok bs => (run_dlist r2 (Mesh.empty, 0) bs).map (fun acc => acc.1)
      | .error e => .error e
      | .panicked => .panicked
      | .diverged => .diverged)
    | .error e => .error e
    | .panicked => .panicked
    | .diverged => .diverged)
  | .error e => .error e
  | .panicked => .panicked
  | .diverged => .diverged, r)

/-- The sibling walk of `build_node_hierarchy` (`skeleton.rs`): push the
current index, then follow `sibling` links until `0xFF`; indexing out of
bounds is the Rust panic, and a cyclic chain makes the `while` loop run
forever (fuel exhaustion). -/
def sibling_chain (limbs : List SkinLimbRec) : Nat → Nat → RustResult (List Nat)
  | _, 0 => .diverged
  | cur, fuel + 1 =>
    match limbs[cur]? with
    | none => .panicked
    | some l =>
      if l.sibling = 0xFF then .ok [cur]
      else (sibling_chain limbs l.sibling fuel).map (fun rest => cur :: rest)

/-- `build_node_hierarchy` (`skeleton.rs`): for each limb whose `child`
is not `0xFF`, the node's children list is the child followed by its
sibling chain; all other nodes keep an empty children list. -/
def build_node_hierarchy (limbs : List SkinLimbRec) (fuel : Nat) :
    RustResult (List (List Nat)) :=
  (List.range limbs.length).mapM (fun i =>
    match limbs[i]? with
    | none => .panicked
    | some l =>
      if l.child = 0xFF then .ok []
      else sibling_chain limbs l.child fuel)

/-- One iteration of the parent-assignment loop of `gltf_from_skeleton`
(`skin/gltf.rs`): record this limb as its child's parent, then propagate
this limb's own parent — fetched with `.unwrap()`, a panic when it has
not been assigned — to its sibling. -/
def gltf_parents_step (limbs : List SkinLimbRec) (parents : List (Option Nat)) (i : Nat) :
    RustResult (List (Option Nat)) :=
  match limbs[i]? with
  | none => .panicked
  | some l =>
    let step1 : RustResult (List (Option Nat)) :=
      if l.child = 0xFF then .ok parents
      else if l.child < parents.length then .ok (parents.set l.child (some i))
      else .panicked
    step1.bind (fun parents1 =>
      if l.sibling = 0xFF then .ok parents1
      else
        match parents1.getD i none with
        | some p =>
          if l.sibling < parents1.length then .ok (parents1.set l.sibling (some p))
          else .panicked
        | none => .panicked)

/-- The parent-assignment loop of `gltf_from_skeleton`. -/
def gltf_parents (limbs : List SkinLimbRec) : RustResult (List (Option Nat)) :=
  (List.range limbs.length).foldlM (gltf_parents_step limbs)
    (List.replicate limbs.length none)

/-- `rom::AnimationHeader` (0x10 bytes: padded frame count, frame-data
address, joint-index table address, padded static-index threshold). -/
structure AnimationHeaderRec where
  frame_count : Int
  frame_data : Nat
  joint_indicies : Nat
  static_index_max : Nat
  deriving DecidableEq, Repr

def animationHeaderDecoder : Decoder AnimationHeaderRec :=
  ⟨16, fun bs => ⟨toI16 (be16 bs), be32 (bs.drop 4), be32 (bs.drop 8), be16 (bs.drop 12)⟩⟩

/-- `rom::JointIndex` (six bytes: three `U16` table indices). -/
structure JointIndexRec where
  x : Nat
  y : Nat
  z : Nat
  deriving DecidableEq, Repr

def jointIndexDecoder : Decoder JointIndexRec :=
  ⟨6, fun bs => ⟨be16 bs, be16 (bs.drop 2), be16 (bs.drop 4)⟩⟩

/-- The `frame_data` closure of `for_each_frame_data`
(`skeleton_animation.rs`): read the `I16` at
`animation_header.frame_data + n`, where `+` on `VirtAddr<I16>` scales
the signed displacement by the record size 2. -/
def frame_data_read (r : Reader) (frame_data_addr : Nat) (n : Int) : RustResult Int :=
  r.read i16Decoder (addr_add frame_data_addr (n * 2))

/-- The `read_data` closure of `for_each_frame_data`: a table index at
or above `static_index_max` (a `u16` comparison) is dynamic and is
offset by the frame index under `i16` arithmetic
(`frame_index as i16 + n as i16`); a smaller index is static and is used
as `n as i16` directly. -/
def read_data (r : Reader) (hdr : AnimationHeaderRec) (frame_index : Nat) (n : Nat) :
    RustResult Int :=
  if hdr.static_index_max ≤ n then
    frame_data_read r hdr.frame_data (wrapI16 (toI16 frame_index + toI16 n))
  else
    frame_data_read r hdr.frame_data (toI16 n)

/-- `for_each_frame_data` (`skeleton_animation.rs`): read the
`limb_count + 1`-entry `JointIndex` table, then resolve, for each limb
index, the three components of table entry `limb_index + 1` — entry 0,
the root, is never consumed. -/
def for_each_frame_data (r : Reader) (hdr : AnimationHeaderRec) (frame_index : Nat)
    (limb_count : Nat) : RustResult (List (Nat × Int × Int × Int)) :=
  match r.read_slice jointIndexDecoder hdr.joint_indicies (limb_count + 1) with
  | .ok jis =>
    (List.range limb_count).mapM (fun limb_index =>
      match jis[limb_index + 1]? with
      | none => .panicked
      | some ji => do
        let x ← read_data r hdr frame_index ji.x
        let y ← read_data r hdr frame_index ji.y
        let z ← read_data r hdr frame_index ji.z
        pure (limb_index, x, y, z))
  | .error e => .error e
  | .panicked => .panicked
  | .diverged => .diverged

/-- The `frame_data` closure of `SkeletonAnimation::create_from_header`
(`skin/skeleton.rs`): seek to
`frame_data + size_of::<i16>() * (frame_index + n)` — `n` is
zero-extended from `u16` to `i32` here — and read an `i16` through the
spec-modelled `RomReader`. -/
def sa_frame_data (r : Reader) (fd : Nat) (frame_index : Int) (n : Nat) : RustResult Int :=
  RomReader.read_i16 r (addr_add fd (2 * (frame_index + n)))

/-- The `limb_data` closure of `SkeletonAnimation::create_from_header`:
the branch compares `n as i16` against the signed `static_index_max`. -/
def sa_limb_data (r : Reader) (fd : Nat) (static_index_max : Int) (frame_index : Nat)
    (n : Nat) : RustResult Int :=
  if static_index_max ≤ toI16 n then sa_frame_data r fd frame_index n
  else sa_frame_data r fd 0 n

/-- One frame of `SkeletonAnimation::create_from_header`: resolve all
three components of every `JointIndex` entry (including entry 0), then
drop the first — the root placeholder is not emitted as a joint. -/
def sa_frame_joints (r : Reader) (fd : Nat) (static_index_max : Int)
    (jis : List JointIndexRec) (frame_index : Nat) : RustResult (List (Int × Int × Int)) :=
  (jis.mapM (fun (ji : JointIndexRec) => do
    let x ← sa_limb_data r fd static_index_max frame_index ji.x
    let y ← sa_limb_data r fd static_index_max frame_index ji.y
    let z ← sa_limb_data r fd static_index_max frame_index ji.z
    pure (x, y, z))).map (List.drop 1)

/-! ## Helper lemmas -/

/-- The 8 big-endian bytes of an instruction word. -/
def word_to_bytes (w : Nat) : List Nat :=
  [w / 72057594037927936 % 256, w / 281474976710656 % 256, w / 1099511627776 % 256,
   w / 4294967296 % 256, w / 16777216 % 256, w / 65536 % 256, w / 256 % 256, w % 256]

theorem slice_from_ne_diverged (r : Reader) (addr : Nat) : r.slice_from addr ≠ .diverged := by
  unfold Reader.slice_from
  cases r.seg_get (segment_number addr) with
  | none => simp
  | some data =>
    dsimp only
    split <;> simp

theorem read_ne_diverged {α : Type} (r : Reader) (d : Decoder α) (addr : Nat) :
    r.read d addr ≠ .diverged := by
  unfold Reader.read
  cases h : r.slice_from addr with
  | ok bs =>
    dsimp only
    split <;> simp
  | error e => simp
  | panicked => simp
  | diverged => exact absurd h (slice_from_ne_diverged r addr)

theorem collect_reads_eq_filterMap {α : Type} (r : Reader) (d : Decoder α) :
    ∀ addrs : List Nat, (∀ a ∈ addrs, r.read d a ≠ .panicked) →
      collect_reads r d addrs = .ok (addrs.filterMap (fun a => (r.read d a).toOption))
  | [], _ => rfl
  | a :: rest, h => by
    have hrest :=
      collect_reads_eq_filterMap r d rest (fun x hx => h x (List.mem_cons_of_mem a hx))
    have ha := h a (List.mem_cons_self a rest)
    unfold collect_reads
    cases hr : r.read d a with
    | ok v =>
      rw [hrest]
      simp [List.filterMap_cons, hr, RustResult.toOption, RustResult.map]
    | error e =>
      rw [hrest]
      simp [List.filterMap_cons, hr, RustResult.toOption]
    | panicked => exact absurd hr ha
    | diverged => exact absurd hr (read_ne_diverged r d a)

set_option maxRecDepth 8000 in
theorem be64_word_to_bytes (w : Nat) : be64 (word_to_bytes w) = w % 18446744073709551616 := by
  simp only [word_to_bytes, be64, List.take_cons, List.take_nil, beNat, List.length_cons,
    List.length_nil]
  norm_num
  omega

theorem stream_instrs_word_cons (w : Nat) (hw : w < 18446744073709551616) (rest : List Nat) :
    stream_instrs (word_to_bytes w ++ rest) =
      match instruction_opcode w with
      | none => .panicked
      | some .ENDDL => .ok [w]
      | some _ => (stream_instrs rest).map (fun ws => w :: ws) := by
  have hbe : be64 (word_to_bytes w) = w := by
    rw [be64_word_to_bytes, Nat.mod_eq_of_lt hw]
  simp only [word_to_bytes, List.cons_append, List.nil_append]
  rw [stream_instrs]
  have : be64 [w / 72057594037927936 % 256, w / 281474976710656 % 256, w / 1099511627776 % 256,
      w / 4294967296 % 256, w / 16777216 % 256, w / 65536 % 256, w / 256 % 256, w % 256] = w := by
    simpa [word_to_bytes] using hbe
  rw [this]

theorem stream_instrs_short : ∀ data : List Nat, data.length < 8 → stream_instrs data = .ok []
  | [], _ => rfl
  | [_], _ => rfl
  | [_, _], _ => rfl
  | [_, _, _], _ => rfl
  | [_, _, _, _], _ => rfl
  | [_, _, _, _, _], _ => rfl
  | [_, _, _, _, _, _], _ => rfl
  | [_, _, _, _, _, _, _], _ => rfl
  | _ :: _ :: _ :: _ :: _ :: _ :: _ :: _ :: _, h => by
    simp at h
    omega

/-! ## Claim C1 -/

/-- Claim C1 (amended): for every reader state and address,
`Reader::slice_from` returns a `segment unset` error when the segment
selected by bits 24–27 has no buffer installed; when a buffer is
installed and the 24-bit offset is at most the buffer length it returns
the byte suffix from the offset (at offset = length this is the empty
slice, not an error); and when the offset strictly exceeds the buffer
length the Rust slice indexing `&data[offset..]` panics — there is no
address-out-of-range error value. -/
theorem slice_from_trichotomy (r : Reader) (addr : Nat) :
    (r.seg_get (segment_number addr) = none →
      r.slice_from addr = .error (.segmentUnset (segment_number addr))) ∧
    (∀ data : List Nat, r.seg_get (segment_number addr) = some data →
      (segment_offset addr ≤ data.length →
        r.slice_from addr = .ok (data.drop (segment_offset addr))) ∧
      (data.length < segment_offset addr → r.slice_from addr = .panicked)) := by
  constructor
  · intro h
    unfold Reader.slice_from
    rw [h]
  · intro data h
    constructor
    · intro hle
      unfold Reader.slice_from
      rw [h]
      simp only [if_pos hle]
    · intro hlt
      unfold Reader.slice_from
      rw [h]
      simp only
      rw [if_neg (by omega)]

theorem slice_from_trichotomy_witness :
    Reader.new.slice_from 0x06000000 = .error (.segmentUnset 6) ∧
    (Reader.new.set_segment 0 (some [7, 8])).slice_from 1 = .ok [8] ∧
    (Reader.new.set_segment 0 (some [7, 8])).slice_from 3 = .panicked :=
  ⟨(slice_from_trichotomy Reader.new 0x06000000).1 (by decide),
   ((slice_from_trichotomy (Reader.new.set_segment 0 (some [7, 8])) 1).2 [7, 8]
     (by decide)).1 (by decide),
   ((slice_from_trichotomy (Reader.new.set_segment 0 (some [7, 8])) 3).2 [7, 8]
     (by decide)).2 (by decide)⟩

/-- Claim C1 counterexample: with segment 0 holding a single byte,
resolving offset 2 panics (Rust slice indexing) instead of returning an
address-out-of-range error, and resolving offset 1 — which equals the
buffer length, so the claim's "offset greater than or equal to the
buffer length" case — succeeds with an empty slice instead of erroring. -/
theorem slice_from_counterexample :
    (Reader.new.set_segment 0 (some [7])).slice_from 2 = .panicked ∧
    (Reader.new.set_segment 0 (some [7])).slice_from 1 = .ok [] := by decide

/-! ## Claim C2 -/

/-- Claim C2 (amended): an 8-byte instruction word whose top byte is not
a recognized opcode value is a hard decode failure in both decoder
revisions and is never skipped — but only the `dlist.rs` revision
surfaces it as a fallible result: `Opcode::from_data` returns an
`UnknownOpcode` error value and `InstrIter`'s iteration propagates it,
aborting with that error; the `display_list.rs` revision
(`Instruction::opcode`, modelled by `instruction_opcode` returning
`none`) aborts the stream by panicking instead of returning a fallible
result. -/
theorem unknown_opcode_aborts (w : Nat) (h : opcode_from_byte (instr_top w) = none) :
    Opcode.from_data w = .error (.unknownOpcode (instr_top w)) ∧
    instruction_opcode w = none ∧
    (w < 18446744073709551616 →
      ∀ rest : List Nat, stream_instrs (word_to_bytes w ++ rest) = .panicked) ∧
    (∀ (r : Reader) (pos fuel : Nat), RomReader.read_u64 r pos = .ok w →
      iter_instrs r pos (fuel + 1) = .error (.unknownOpcode (instr_top w))) := by
  refine ⟨?_, h, ?_, ?_⟩
  · unfold Opcode.from_data
    rw [h]
  · intro hw rest
    rw [stream_instrs_word_cons w hw rest]
    unfold instruction_opcode
    rw [h]
  · intro r pos fuel hr
    unfold iter_instrs instr_iter_next
    rw [hr]
    simp [Opcode.from_data, h]

theorem unknown_opcode_aborts_witness :
    Opcode.from_data 0x0200000000000000 = .error (.unknownOpcode 2) ∧
    iter_instrs (Reader.new.set_segment 0 (some [2, 0, 0, 0, 0, 0, 0, 0])) 0 3 =
      .error (.unknownOpcode 2) := by
  have h := unknown_opcode_aborts 0x0200000000000000 (by decide)
  exact ⟨h.1, h.2.2.2 (Reader.new.set_segment 0 (some [2, 0, 0, 0, 0, 0, 0, 0])) 0 2 (by decide)⟩

/-- Claim C2 counterexample: for the word with unrecognized top byte
0x02, the old-revision decoder takes the `panic!` branch
(`instruction_opcode` is `none`) and the old-revision instruction stream
panics — the failure is not surfaced to the caller as a fallible result,
contradicting the claim's "rather than a panic". -/
theorem unknown_opcode_counterexample :
    instruction_opcode 0x0200000000000000 = none ∧
    stream_instrs [2, 0, 0, 0, 0, 0, 0, 0] = .panicked := by decide

/-! ## Claim C3 -/

/-- Claim C3 (amended): for `Reader::ptr_slice_iter`, a failure to read
the pointer table itself propagates to the caller; but a failure to
dereference or decode one of the stored addresses does not — the
`flat_map(|addr| read(addr).into_iter())` construction yields nothing
for an `Err` entry, so the iterator silently skips every failing entry
and yields exactly the successfully decoded ones (a panic during an
entry read still unwinds the whole iteration). -/
theorem ptr_slice_iter_error_handling {α : Type} (r : Reader) (d : Decoder α)
    (addr count : Nat) :
    (∀ e, r.read_slice addrDecoder addr count = .error e →
      r.ptr_slice_iter d addr count = .error e) ∧
    (∀ addrs : List Nat, r.read_slice addrDecoder addr count = .ok addrs →
      (∀ a ∈ addrs, r.read d a ≠ .panicked) →
      r.ptr_slice_iter d addr count =
        .ok (addrs.filterMap (fun a => (r.read d a).toOption))) := by
  constructor
  · intro e he
    unfold Reader.ptr_slice_iter
    rw [he]
  · intro addrs ha hnp
    unfold Reader.ptr_slice_iter
    rw [ha]
    exact collect_reads_eq_filterMap r d addrs hnp

theorem ptr_slice_iter_error_handling_witness :
    (Reader.new.set_segment 0 (some [0, 0, 0, 4, 6, 0, 0, 0])).ptr_slice_iter
      u16Decoder 0 2 = .ok [1536] := by
  have h := (ptr_slice_iter_error_handling
    (Reader.new.set_segment 0 (some [0, 0, 0, 4, 6, 0, 0, 0])) u16Decoder 0 2).2
    [4, 0x06000000] (by decide) (by decide)
  rw [h]
  decide

/-- Claim C3 counterexample: a pointer table with one stored address
whose dereference fails with a segment-unset error; `ptr_slice_iter`
nevertheless returns `Ok` with the entry silently dropped — the error is
not propagated to the caller. -/
theorem ptr_slice_iter_counterexample :
    (Reader.new.set_segment 0 (some [6, 0, 0, 0])).ptr_slice_iter u16Decoder 0 1 = .ok [] ∧
    (Reader.new.set_segment 0 (some [6, 0, 0, 0])).read u16Decoder 0x06000000 =
      .error (.segmentUnset 6) := by decide

/-! ## Claim C8 -/

/-- Claim C8: in both interpreter revisions, each 8-bit `TRI1`/`TRI2`
operand field is halved by exact integer division — the encoded values
`2k` and `2k + 1` both resolve to local index `k` — and a `TRI1`
instruction emits exactly one triangle (three indices appended by the
`mesh.rs` fold; one triple buffered by the `dlist/gltf.rs` interpreter)
while `TRI2` emits exactly two (six indices / two triples). -/
theorem tri_halving_exact (w k : Nat) (hk : k < 128) :
    (w / 281474976710656 % 256 = 2 * k ∨ w / 281474976710656 % 256 = 2 * k + 1 →
      Tri1.aa w = k ∧ Tri2.aa w = k) ∧
    (w / 1099511627776 % 256 = 2 * k ∨ w / 1099511627776 % 256 = 2 * k + 1 →
      Tri1.bb w = k ∧ Tri2.bb w = k) ∧
    (w / 4294967296 % 256 = 2 * k ∨ w / 4294967296 % 256 = 2 * k + 1 →
      Tri1.cc w = k ∧ Tri2.cc w = k) ∧
    (w / 65536 % 256 = 2 * k ∨ w / 65536 % 256 = 2 * k + 1 →
      Tri2.dd w = k) ∧
    (w / 256 % 256 = 2 * k ∨ w / 256 % 256 = 2 * k + 1 →
      Tri2.ee w = k) ∧
    (w % 256 = 2 * k ∨ w % 256 = 2 * k + 1 →
      Tri2.ff w = k) ∧
    (∀ (r : Reader) (m : Mesh) (off : Nat), instr_top w = 0x05 →
      mesh_fold_step r (m, off) w =
        .ok ({ m with
          indices := m.indices ++ [off + Tri1.aa w, off + Tri1.bb w, off + Tri1.cc w] }, off)) ∧
    (∀ (r : Reader) (m : Mesh) (off : Nat), instr_top w = 0x06 →
      mesh_fold_step r (m, off) w =
        .ok ({ m with
          indices := m.indices ++
            [off + Tri2.aa w, off + Tri2.bb w, off + Tri2.cc w,
             off + Tri2.dd w, off + Tri2.ee w, off + Tri2.ff w] }, off)) ∧
    (∀ (r : Reader) (s : InterpState), s.done = false →
      instr_iter_next r s.iter_pos = .ok (some (.TRI1, w)) →
      Interp.next r s =
        .ok ({ s with
          iter_pos := s.iter_pos + 8
          tris := s.tris ++ [(Tri1.aa w, Tri1.bb w, Tri1.cc w)] }, true)) ∧
    (∀ (r : Reader) (s : InterpState), s.done = false →
      instr_iter_next r s.iter_pos = .ok (some (.TRI2, w)) →
      Interp.next r s =
        .ok ({ s with
          iter_pos := s.iter_pos + 8
          tris := s.tris ++
            [(Tri2.aa w, Tri2.bb w, Tri2.cc w), (Tri2.dd w, Tri2.ee w, Tri2.ff w)] }, true)) := by
  refine ⟨?_, ?_, ?_, ?_, ?_, ?_, ?_, ?_, ?_, ?_⟩
  · intro h
    refine ⟨?_, ?_⟩ <;>
      (simp only [Tri1.aa, Tri2.aa]; rcases h with h | h <;> rw [h] <;> omega)
  · intro h
    refine ⟨?_, ?_⟩ <;>
      (simp only [Tri1.bb, Tri2.bb]; rcases h with h | h <;> rw [h] <;> omega)
  · intro h
    refine ⟨?_, ?_⟩ <;>
      (simp only [Tri1.cc, Tri2.cc]; rcases h with h | h <;> rw [h] <;> omega)
  · intro h
    simp only [Tri2.dd]; rcases h with h | h <;> rw [h] <;> omega
  · intro h
    simp only [Tri2.ee]; rcases h with h | h <;> rw [h] <;> omega
  · intro h
    simp only [Tri2.ff]; rcases h with h | h <;> rw [h] <;> omega
  · intro r m off h
    simp [mesh_fold_step, instruction_opcode, h, opcode_from_byte]
  · intro r m off h
    simp [mesh_fold_step, instruction_opcode, h, opcode_from_byte]
  · intro r s hdone hnext
    simp [Interp.next, hdone, hnext]
  · intro r s hdone hnext
    simp [Interp.next, hdone, hnext]

theorem tri_halving_exact_witness :
    Tri1.aa 0x0504020600000000 = 2 ∧ Tri2.aa 0x0504020600000000 = 2 ∧
    mesh_fold_step Reader.new (Mesh.empty, 7) 0x0504020600000000 =
      .ok ({ Mesh.empty with indices := [7 + 2, 7 + 1, 7 + 3] }, 7) ∧
    Interp.next (Reader.new.set_segment 0 (some [5, 4, 2, 6, 0, 0, 0, 0]))
      (InterpState.start 0) =
      .ok ({ InterpState.start 0 with iter_pos := 8, tris := [(2, 1, 3)] }, true) := by
  have h := tri_halving_exact 0x0504020600000000 2 (by decide)
  refine ⟨(h.1 (Or.inl (by decide))).1, (h.1 (Or.inl (by decide))).2, ?_, ?_⟩
  · have := h.2.2.2.2.2.2.1 Reader.new Mesh.empty 7 (by decide)
    rw [this]
    decide
  · have := h.2.2.2.2.2.2.2.2.1 (Reader.new.set_segment 0 (some [5, 4, 2, 6, 0, 0, 0, 0]))
      (InterpState.start 0) (by decide) (by decide)
    rw [this]
    decide

/-! ## Claim C9 helper lemmas -/

theorem stream_instrs_word_enddl (w : Nat) (hw : w < 18446744073709551616)
    (htop : instr_top w = 0xDF) (rest : List Nat) :
    stream_instrs (word_to_bytes w ++ rest) = .ok [w] := by
  rw [stream_instrs_word_cons w hw rest]
  have : instruction_opcode w = some .ENDDL := by
    unfold instruction_opcode
    rw [htop]
    decide
  rw [this]

theorem stream_instrs_word_cons_of_ne (w : Nat) (hw : w < 18446744073709551616) (o : Opcode)
    (ho : instruction_opcode w = some o) (hne : o ≠ .ENDDL) (rest : List Nat) :
    stream_instrs (word_to_bytes w ++ rest) = (stream_instrs rest).map (fun ws => w :: ws) := by
  rw [stream_instrs_word_cons w hw rest, ho]
  cases o <;> first | rfl | exact absurd rfl hne

/-! ## Claim C9 -/

/-- Claim C9 (amended): the old-revision `InstructionStream` yields
exactly the consecutive 8-byte instructions up to and INCLUDING the
first `ENDDL` word — independently of any bytes that follow it, which
are never read — and, when no `ENDDL` occurs, up to the end of the
buffer (a trailing partial word is dropped). The new-revision
`InstrIter` stops at the first `ENDDL` WITHOUT yielding it, yields each
non-`ENDDL` instruction consecutively, and surfaces an error (rather
than stopping cleanly) when it runs off the end of the buffer with no
`ENDDL`. -/
theorem instruction_stream_termination :
    (∀ (ws : List Nat) (we : Nat) (extra : List Nat),
      (∀ w ∈ ws, w < 18446744073709551616 ∧
        (∃ o, instruction_opcode w = some o ∧ o ≠ .ENDDL)) →
      we < 18446744073709551616 → instr_top we = 0xDF →
      stream_instrs (ws.flatMap word_to_bytes ++ (word_to_bytes we ++ extra)) =
        .ok (ws ++ [we])) ∧
    (∀ (ws : List Nat) (rest : List Nat),
      (∀ w ∈ ws, w < 18446744073709551616 ∧
        (∃ o, instruction_opcode w = some o ∧ o ≠ .ENDDL)) →
      rest.length < 8 →
      stream_instrs (ws.flatMap word_to_bytes ++ rest) = .ok ws) ∧
    (∀ (r : Reader) (pos fuel : Nat), instr_iter_next r pos = .ok none →
      iter_instrs r pos (fuel + 1) = .ok []) ∧
    (∀ (r : Reader) (pos fuel : Nat) (e : RomErr), instr_iter_next r pos = .error e →
      iter_instrs r pos (fuel + 1) = .error e) ∧
    (∀ (r : Reader) (pos fuel : Nat) (o : Opcode) (w : Nat),
      instr_iter_next r pos = .ok (some (o, w)) →
      iter_instrs r pos (fuel + 1) =
        (iter_instrs r (pos + 8) fuel).map (fun rest => (o, w) :: rest)) := by
  refine ⟨?_, ?_, ?_, ?_, ?_⟩
  · intro ws
    induction ws with
    | nil =>
      intro we extra _ hwe htop
      simpa using stream_instrs_word_enddl we hwe htop extra
    | cons w ws ih =>
      intro we extra hws hwe htop
      obtain ⟨hw, o, ho, hne⟩ := hws w (List.mem_cons_self w ws)
      have hrest := ih we extra (fun x hx => hws x (List.mem_cons_of_mem w hx)) hwe htop
      simp only [List.flatMap_cons, List.append_assoc]
      rw [stream_instrs_word_cons_of_ne w hw o ho hne, hrest]
      simp [RustResult.map]
  · intro ws
    induction ws with
    | nil =>
      intro rest _ hrest
      simpa using stream_instrs_short rest hrest
    | cons w ws ih =>
      intro rest hws hrest
      obtain ⟨hw, o, ho, hne⟩ := hws w (List.mem_cons_self w ws)
      have h2 := ih rest (fun x hx => hws x (List.mem_cons_of_mem w hx)) hrest
      simp only [List.flatMap_cons, List.append_assoc]
      rw [stream_instrs_word_cons_of_ne w hw o ho hne, h2]
      simp [RustResult.map]
  · intro r pos fuel h
    simp [iter_instrs, h]
  · intro r pos fuel e h
    simp [iter_instrs, h]
  · intro r pos fuel o w h
    simp [iter_instrs, h]

theorem instruction_stream_termination_witness :
    stream_instrs
      ([0xE700000000000000].flatMap word_to_bytes ++
        (word_to_bytes 0xDF00000000000000 ++ [9, 9, 9, 9, 9, 9, 9, 9])) =
      .ok [0xE700000000000000, 0xDF00000000000000] ∧
    iter_instrs (Reader.new.set_segment 0 (some [0xDF, 0, 0, 0, 0, 0, 0, 0])) 0 4 = .ok [] := by
  constructor
  · exact (instruction_stream_termination).1 [0xE700000000000000] 0xDF00000000000000
      [9, 9, 9, 9, 9, 9, 9, 9] (by decide) (by decide) (by decide)
  · exact (instruction_stream_termination).2.2.1
      (Reader.new.set_segment 0 (some [0xDF, 0, 0, 0, 0, 0, 0, 0])) 0 3 (by decide)

/-- Claim C9 counterexample: on a buffer holding exactly one `ENDDL`
instruction, the old stream yields it but the new `InstrIter` yields
nothing — so iteration does not yield "up to and including" the first
`ENDDL` in the `dlist.rs` revision; and on a buffer holding one
non-`ENDDL` instruction and no `ENDDL`, the new iterator ends with a
read error rather than yielding exactly the buffer's instructions. -/
theorem instruction_stream_counterexample :
    stream_instrs [0xDF, 0, 0, 0, 0, 0, 0, 0] = .ok [0xDF00000000000000] ∧
    iter_instrs (Reader.new.set_segment 0 (some [0xDF, 0, 0, 0, 0, 0, 0, 0])) 0 4 = .ok [] ∧
    iter_instrs (Reader.new.set_segment 0 (some [0xE7, 0, 0, 0, 0, 0, 0, 0])) 0 4 =
      .error .readFailed := by
  decide

/-! ## Claim C5 -/

/-- Claim C5: in both interpreter revisions, vertex loads and triangle
emission compose accumulatively. In the `mesh.rs` fold, a `VTX`
instruction sets the base index (`vertex_offset`) to the number of
vertices accumulated from all prior `VTX` runs (the current vertex
count) and appends the newly loaded records, clearing neither vertices
nor indices; a `TRI1`/`TRI2` instruction appends exactly `base + halved
operand` indices computed against the base of the run it follows, so
indices emitted before a later load reference the prior run's base. In
the `dlist/gltf.rs` interpreter, `flush` — run when the next `VTX` (or
the end of the list) is reached — only appends to the vertex and index
lists, installs the new vertex source, and emits each buffered
triangle's indices as the pre-load vertex count (the prior run's base)
plus the already-halved operand. -/
theorem vtx_base_accumulation :
    (∀ (r : Reader) (m : Mesh) (off : Nat) (w : Nat) (vtxs : List VtxRec),
      instr_top w = 0x01 →
      r.read_slice vtxDecoder (Vtx.addr w) (Vtx.nn w) = .ok vtxs →
      mesh_fold_step r (m, off) w =
        .ok ({ m with vertices := m.vertices ++ vtxs.map VtxRec.toVertex },
          m.vertices.length)) ∧
    (∀ (r : Reader) (m : Mesh) (off : Nat) (w : Nat),
      instr_top w = 0x05 →
      mesh_fold_step r (m, off) w =
        .ok ({ m with
          indices := m.indices ++ [off + Tri1.aa w, off + Tri1.bb w, off + Tri1.cc w] }, off)) ∧
    (∀ (r : Reader) (s : InterpState) (next : Option Nat) (s2 : InterpState),
      Interp.flush r s next = .ok s2 →
      s2.current_vtx_addr = next ∧
      (∃ newV, s2.vertices = s.vertices ++ newV) ∧
      (∃ newI, s2.indices = s.indices ++ newI)) ∧
    (∀ (r : Reader) (s : InterpState) (next : Option Nat) (a mx : Nat)
      (vtxs : List VtxRec),
      s.current_vtx_addr = some a → max_tri_index s.tris = some mx →
      segment_iter_vtx r a (mx + 1) = .ok vtxs →
      Interp.flush r s next =
        .ok { s with
          current_vtx_addr := next
          vertices := s.vertices ++ vtxs.map VtxRec.toVertex
          indices := s.indices ++
            s.tris.flatMap (fun t =>
              [s.vertices.length + t.1, s.vertices.length + t.2.1,
               s.vertices.length + t.2.2])
          tris := [] }) ∧
    (∀ (r : Reader) (s : InterpState) (w : Nat),
      s.done = false → instr_iter_next r s.iter_pos = .ok (some (.VTX, w)) →
      Interp.next r s =
        (Interp.flush r { s with iter_pos := s.iter_pos + 8 }
          (some (Vtx.addr w))).map (fun s2 => (s2, true))) := by
  refine ⟨?_, ?_, ?_, ?_, ?_⟩
  · intro r m off w vtxs htop hread
    simp [mesh_fold_step, instruction_opcode, htop, opcode_from_byte, hread]
  · intro r m off w htop
    simp [mesh_fold_step, instruction_opcode, htop, opcode_from_byte]
  · intro r s next s2 h
    unfold Interp.flush at h
    cases hcv : s.current_vtx_addr with
    | none =>
      rw [hcv] at h
      simp only [RustResult.ok.injEq] at h
      subst h
      exact ⟨rfl, ⟨[], by simp⟩, ⟨[], by simp⟩⟩
    | some a =>
      rw [hcv] at h
      cases hmx : max_tri_index s.tris with
      | none =>
        rw [hmx] at h
        simp only [RustResult.ok.injEq] at h
        subst h
        exact ⟨rfl, ⟨[], by simp⟩, ⟨[], by simp⟩⟩
      | some mx =>
        rw [hmx] at h
        dsimp only at h
        cases hsi : segment_iter_vtx r a (mx + 1) with
        | ok vtxs =>
          rw [hsi] at h
          simp only [RustResult.ok.injEq] at h
          subst h
          exact ⟨rfl, ⟨vtxs.map VtxRec.toVertex, rfl⟩, ⟨_, rfl⟩⟩
        | error e => rw [hsi] at h; cases h
        | panicked => rw [hsi] at h; cases h
        | diverged => rw [hsi] at h; cases h
  · intro r s next a mx vtxs hcv hmx hsi
    unfold Interp.flush
    rw [hcv, hmx]
    dsimp only
    rw [hsi]
  · intro r s w hdone hnext
    simp [Interp.next, hdone, hnext]

theorem vtx_base_accumulation_witness :
    mesh_fold_step
      (Reader.new.set_segment 0 (some
        [1, 0, 16, 0, 0, 0, 0, 16, 0, 0, 0, 0, 0, 0, 0, 0,
         0, 1, 0, 2, 0, 3, 0, 0, 0, 0, 0, 0, 0, 0, 0, 0]))
      ({ indices := [7], vertices := [⟨(5, 5, 5)⟩] }, 0) 0x0100100000000010 =
      .ok ({ indices := [7], vertices := [⟨(5, 5, 5)⟩, ⟨(1, 2, 3)⟩] }, 1) ∧
    Interp.flush
      (Reader.new.set_segment 0 (some
        [1, 0, 16, 0, 0, 0, 0, 16, 0, 0, 0, 0, 0, 0, 0, 0,
         0, 1, 0, 2, 0, 3, 0, 0, 0, 0, 0, 0, 0, 0, 0, 0]))
      { iter_pos := 8
        tris := [(0, 0, 0)]
        current_vtx_addr := some 16
        done := false
        indices := []
        vertices := [⟨(5, 5, 5)⟩] } none =
      .ok
        { iter_pos := 8
          tris := []
          current_vtx_addr := none
          done := false
          indices := [1, 1, 1]
          vertices := [⟨(5, 5, 5)⟩, ⟨(1, 2, 3)⟩] } ∧
    Interp.next
      (Reader.new.set_segment 0 (some
        [1, 0, 16, 0, 0, 0, 0, 16, 0, 0, 0, 0, 0, 0, 0, 0,
         0, 1, 0, 2, 0, 3, 0, 0, 0, 0, 0, 0, 0, 0, 0, 0]))
      (InterpState.start 0) =
      .ok ({ InterpState.start 0 with iter_pos := 8, current_vtx_addr := some 16 }, true) := by
  refine ⟨?_, ?_, ?_⟩
  · have := vtx_base_accumulation.1
      (Reader.new.set_segment 0 (some
        [1, 0, 16, 0, 0, 0, 0, 16, 0, 0, 0, 0, 0, 0, 0, 0,
         0, 1, 0, 2, 0, 3, 0, 0, 0, 0, 0, 0, 0, 0, 0, 0]))
      { indices := [7], vertices := [⟨(5, 5, 5)⟩] } 0 0x0100100000000010
      [{ VtxRec.zero with pos := (1, 2, 3) }] (by decide) (by decide)
    rw [this]
    decide
  · have := vtx_base_accumulation.2.2.2.1
      (Reader.new.set_segment 0 (some
        [1, 0, 16, 0, 0, 0, 0, 16, 0, 0, 0, 0, 0, 0, 0, 0,
         0, 1, 0, 2, 0, 3, 0, 0, 0, 0, 0, 0, 0, 0, 0, 0]))
      { iter_pos := 8
        tris := [(0, 0, 0)]
        current_vtx_addr := some 16
        done := false
        indices := []
        vertices := [⟨(5, 5, 5)⟩] } none 16 0
      [{ VtxRec.zero with pos := (1, 2, 3) }] (by decide) (by decide) (by decide)
    rw [this]
    decide
  · have := vtx_base_accumulation.2.2.2.2
      (Reader.new.set_segment 0 (some
        [1, 0, 16, 0, 0, 0, 0, 16, 0, 0, 0, 0, 0, 0, 0, 0,
         0, 1, 0, 2, 0, 3, 0, 0, 0, 0, 0, 0, 0, 0, 0, 0]))
      (InterpState.start 0) 0x0100100000000010 (by decide) (by decide)
    rw [this]
    decide

/-! ## Claim C4 helper definitions and lemmas -/

/-- The spec's wording of the deformation offset: the sum, over the
transformation list, of each transformation's components multiplied by
`scale * 0.01` (stated for comparison with the source's fold). -/
def spec_offset (ts : List SkinTransformation) : ℚ × ℚ × ℚ :=
  ((ts.map (fun t => (t.x : ℚ) * ((t.scale : ℚ) * (1 / 100)))).sum,
   (ts.map (fun t => (t.y : ℚ) * ((t.scale : ℚ) * (1 / 100)))).sum,
   (ts.map (fun t => (t.z : ℚ) * ((t.scale : ℚ) * (1 / 100)))).sum)

theorem foldl_transformations (ts : List SkinTransformation) :
    ∀ acc : ℚ × ℚ × ℚ,
      ts.foldl
        (fun accum t =>
          let scale : ℚ := (t.scale : ℚ) * (1 / 100)
          (accum.1 + (t.x : ℚ) * scale, accum.2.1 + (t.y : ℚ) * scale,
            accum.2.2 + (t.z : ℚ) * scale)) acc =
      (acc.1 + (spec_offset ts).1, acc.2.1 + (spec_offset ts).2.1,
        acc.2.2 + (spec_offset ts).2.2) := by
  induction ts with
  | nil =>
    intro acc
    simp [spec_offset]
  | cons t ts ih =>
    intro acc
    simp only [List.foldl_cons, ih, spec_offset, List.map_cons, List.sum_cons]
    simp only [Prod.ext_iff]
    refine ⟨?_, ?_, ?_⟩ <;> dsimp only <;> ring

theorem apply_limb_transformations_eq_spec (ts : List SkinTransformation) :
    apply_limb_transformations ts = spec_offset ts := by
  unfold apply_limb_transformations
  rw [foldl_transformations ts (0, 0, 0)]
  simp

theorem write_skin_vertices_ok (p : Int × Int × Int) :
    ∀ (svs : List SkinVertex) (buf res : List VtxRec),
      write_skin_vertices buf p svs = .ok res →
      res.length = buf.length ∧
      (∀ i : Nat, (∃ sv ∈ svs, sv.index = i) →
        res[i]? = (buf[i]?).map (fun v => { v with pos := p })) ∧
      (∀ i : Nat, (∀ sv ∈ svs, sv.index ≠ i) → res[i]? = buf[i]?)
  | [], buf, res, h => by
    simp only [write_skin_vertices, RustResult.ok.injEq] at h
    subst h
    refine ⟨rfl, ?_, fun i _ => rfl⟩
    rintro i ⟨sv, hsv, _⟩
    exact absurd hsv (List.not_mem_nil sv)
  | sv :: rest, buf, res, h => by
    cases hb : buf[sv.index]? with
    | none =>
      rw [write_skin_vertices, hb] at h
      cases h
    | some v =>
      rw [write_skin_vertices, hb] at h
      obtain ⟨hlen, hin, hout⟩ :=
        write_skin_vertices_ok p rest (buf.set sv.index { v with pos := p }) res h
      have hidx : sv.index < buf.length := by
        by_contra hge
        rw [List.getElem?_eq_none (by omega)] at hb
        cases hb
      refine ⟨by simpa using hlen, ?_, ?_⟩
      · rintro i ⟨s2, hs2, hs2i⟩
        rcases List.mem_cons.mp hs2 with rfl | hs2r
        · subst hs2i
          by_cases hr : ∃ s3 ∈ rest, s3.index = s2.index
          · rw [hin s2.index hr]
            simp [List.getElem?_set, hidx, hb]
          · push_neg at hr
            rw [hout s2.index hr]
            simp [List.getElem?_set, hidx, hb]
        · rw [hin i ⟨s2, hs2r, hs2i⟩]
          by_cases hie : sv.index = i
          · subst hie
            simp [List.getElem?_set, hidx, hb]
          · simp [List.getElem?_set, hie]
      · intro i hni
        have hsvne : sv.index ≠ i := hni sv (List.mem_cons_self sv rest)
        rw [hout i (fun s3 h3 => hni s3 (List.mem_cons_of_mem sv h3))]
        simp [List.getElem?_set, hsvne]

/-! ## Claim C4 -/

/-- Claim C4 (amended): the deformation offset is the sum over the
`SkinTransformation` list of each transformation's components scaled by
`scale * 0.01`; `read_animated_skin_limb` allocates a zeroed buffer of
`total_vtx_count` entries and, for each `LimbModification` in order,
overwrites (not accumulates) every listed vertex slot's position with
that offset truncated to `i16` — with no special case on the
transformation count. The `gltf_from_skeleton` revision
(`skin/gltf.rs`), however, special-cases a modification whose
transformation list has exactly one element and skips its writes
entirely, leaving its vertex slots untouched; for every other
transformation count it writes exactly as `read_animated_skin_limb`
does. -/
theorem skin_deformation (total : Nat) (m : SkinLimbModif) (buf res : List VtxRec) :
    (apply_limb_transformations m.limb_transformations =
      spec_offset m.limb_transformations) ∧
    (zero_vtx_buffer total = List.replicate total VtxRec.zero) ∧
    (∀ ms : List SkinLimbModif,
      skeleton_build_vertex_buffer total (m :: ms) =
        (skeleton_apply_modif (zero_vtx_buffer total) m).bind
          (fun b2 => ms.foldlM skeleton_apply_modif b2)) ∧
    (skeleton_apply_modif buf m = .ok res →
      res.length = buf.length ∧
      (∀ i : Nat, (∃ sv ∈ m.skin_vertices, sv.index = i) →
        res[i]? = (buf[i]?).map (fun v =>
          { v with pos := vtx_point_i16 m.limb_transformations })) ∧
      (∀ i : Nat, (∀ sv ∈ m.skin_vertices, sv.index ≠ i) → res[i]? = buf[i]?)) ∧
    (m.limb_transformations.length = 1 → gltf_apply_modif buf m = .ok buf) ∧
    (m.limb_transformations.length ≠ 1 →
      gltf_apply_modif buf m = skeleton_apply_modif buf m) := by
  refine ⟨apply_limb_transformations_eq_spec m.limb_transformations, rfl, ?_, ?_, ?_, ?_⟩
  · intro ms
    simp [skeleton_build_vertex_buffer, List.foldlM_cons]
    rfl
  · intro h
    exact write_skin_vertices_ok (vtx_point_i16 m.limb_transformations) m.skin_vertices buf res h
  · intro h1
    simp [gltf_apply_modif, h1]
  · intro hne
    simp [gltf_apply_modif, hne, skeleton_apply_modif]

theorem skin_deformation_witness :
    gltf_apply_modif (zero_vtx_buffer 1)
      ⟨0, [⟨0, 0, 0, (0, 0, 0), 0⟩], [⟨0, 100, 0, 0, 100⟩]⟩ = .ok (zero_vtx_buffer 1) ∧
    gltf_apply_modif (zero_vtx_buffer 1)
      ⟨0, [⟨0, 0, 0, (0, 0, 0), 0⟩], [⟨0, 100, 0, 0, 50⟩, ⟨0, 100, 0, 0, 50⟩]⟩ =
      skeleton_apply_modif (zero_vtx_buffer 1)
        ⟨0, [⟨0, 0, 0, (0, 0, 0), 0⟩], [⟨0, 100, 0, 0, 50⟩, ⟨0, 100, 0, 0, 50⟩]⟩ :=
  ⟨(skin_deformation 1 ⟨0, [⟨0, 0, 0, (0, 0, 0), 0⟩], [⟨0, 100, 0, 0, 100⟩]⟩
      (zero_vtx_buffer 1) []).2.2.2.2.1 (by decide),
   (skin_deformation 1 ⟨0, [⟨0, 0, 0, (0, 0, 0), 0⟩], [⟨0, 100, 0, 0, 50⟩, ⟨0, 100, 0, 0, 50⟩]⟩
      (zero_vtx_buffer 1) []).2.2.2.2.2 (by decide)⟩

/-- Claim C4 counterexample: a modification with exactly one
transformation (x = 100, scale = 100, so a nonzero offset of 100) and
one vertex at slot 0. The `gltf_from_skeleton` deformation leaves the
buffer zeroed — the write is skipped entirely — while the
`read_animated_skin_limb` deformation overwrites slot 0 with (100,0,0),
refuting the claim's "with no special case: a modification whose
transformation list has exactly one element writes its vertices like
any other". -/
theorem skin_deformation_counterexample :
    gltf_apply_modif (zero_vtx_buffer 1)
      ⟨0, [⟨0, 0, 0, (0, 0, 0), 0⟩], [⟨0, 100, 0, 0, 100⟩]⟩ = .ok [VtxRec.zero] ∧
    skeleton_apply_modif (zero_vtx_buffer 1)
      ⟨0, [⟨0, 0, 0, (0, 0, 0), 0⟩], [⟨0, 100, 0, 0, 100⟩]⟩ =
      .ok [{ VtxRec.zero with pos := (100, 0, 0) }] ∧
    VtxRec.zero.pos ≠ ((100 : Int), (0 : Int), (0 : Int)) := by
  refine ⟨by simp [gltf_apply_modif, zero_vtx_buffer], ?_, by decide⟩
  have hoff : vtx_point_i16 [⟨0, 100, 0, 0, 100⟩] = (100, 0, 0) := by
    norm_num [vtx_point_i16, apply_limb_transformations, f32_as_i16, rat_trunc]
  simp [skeleton_apply_modif, hoff, zero_vtx_buffer, write_skin_vertices]

/-! ## Claim C6 helper lemmas -/

@[simp]
theorem RustResult.bind_ok {α β : Type} (a : α) (f : α → RustResult β) :
    (RustResult.ok a >>= f) = f a := rfl

@[simp]
theorem RustResult.bind_error {α β : Type} (e : RomErr) (f : α → RustResult β) :
    ((RustResult.error e : RustResult α) >>= f) = .error e := rfl

@[simp]
theorem RustResult.bind_panicked {α β : Type} (f : α → RustResult β) :
    ((RustResult.panicked : RustResult α) >>= f) = .panicked := rfl

@[simp]
theorem RustResult.bind_diverged {α β : Type} (f : α → RustResult β) :
    ((RustResult.diverged : RustResult α) >>= f) = .diverged := rfl

@[simp]
theorem RustResult.pure_eq {α : Type} (a : α) : (pure a : RustResult α) = .ok a := rfl

theorem mapM_ok {α β : Type} (f : α → RustResult β) :
    ∀ (l : List α) (out : List β), l.mapM f = .ok out →
      out.length = l.length ∧
      ∀ (i : Nat) (a : α), l[i]? = some a → ∃ b, out[i]? = some b ∧ f a = .ok b
  | [], out, h => by
    rw [List.mapM_nil] at h
    simp only [RustResult.pure_eq, RustResult.ok.injEq] at h
    subst h
    exact ⟨rfl, fun i a ha => by simp at ha⟩
  | a :: l, out, h => by
    rw [List.mapM_cons] at h
    cases hfa : f a with
    | ok b =>
      rw [hfa] at h
      simp only [RustResult.bind_ok] at h
      cases hl : l.mapM f with
      | ok bs =>
        rw [hl] at h
        simp only [RustResult.bind_ok, RustResult.pure_eq, RustResult.ok.injEq] at h
        subst h
        obtain ⟨hlen, helem⟩ := mapM_ok f l bs hl
        refine ⟨by simp [hlen], ?_⟩
        intro i x hx
        cases i with
        | zero =>
          simp at hx
          subst hx
          exact ⟨b, by simp, hfa⟩
        | succ j =>
          simp only [List.getElem?_cons_succ] at hx ⊢
          exact helem j x hx
      | error e => rw [hl] at h; simp at h
      | panicked => rw [hl] at h; simp at h
      | diverged => rw [hl] at h; simp at h
    | error e => rw [hfa] at h; simp at h
    | panicked => rw [hfa] at h; simp at h
    | diverged => rw [hfa] at h; simp at h

theorem toI16_small (n : Nat) (h : n < 32768) : toI16 n = (n : Int) := by
  have h2 : n % 65536 = n := Nat.mod_eq_of_lt (by omega)
  simp [toI16, h2, h]

theorem wrapI16_small (z : Int) (h0 : 0 ≤ z) (h : z < 32768) : wrapI16 z = z := by
  unfold wrapI16
  omega

/-! ## Claim C6 -/

/-- Claim C6 (amended): per-component joint-index resolution. In both
revisions a component with table index `n` below the static threshold is
frame-independent (this holds unconditionally). In the old revision
(`skeleton_animation.rs`) the index arithmetic is performed in `i16`: a
static component reads `frame_data[n]` provided `n < 0x8000`, and a
dynamic component (`n ≥ static_index_max`) reads `frame_data[f + n]`
provided the sum `f + n` itself stays below `0x8000` — otherwise the
`frame_index as i16 + n as i16` sum wraps and a different address is
resolved. In the new revision (`skin/skeleton.rs`) `n` is zero-extended
to `i32`, so whenever the signed branch comparison selects the dynamic
case the component reads `frame_data[f + n]` with no bound on `n`, and
the static case reads `frame_data[n]`.
The angle components of limb `k` come from entry `k + 1` of the
`limb_count + 1`-entry `JointIndex` table: the old revision consumes
entries `1..limb_count` producing one triple per limb, and the new
revision resolves all entries and then drops entry 0, the root, which is
never emitted as a joint. -/
theorem joint_index_resolution :
    (∀ (r : Reader) (hdr : AnimationHeaderRec) (f g n : Nat),
      n < hdr.static_index_max →
      read_data r hdr f n = read_data r hdr g n) ∧
    (∀ (r : Reader) (hdr : AnimationHeaderRec) (f n : Nat),
      n < hdr.static_index_max → n < 32768 →
      read_data r hdr f n = frame_data_read r hdr.frame_data (n : Int)) ∧
    (∀ (r : Reader) (hdr : AnimationHeaderRec) (f n : Nat),
      hdr.static_index_max ≤ n → f + n < 32768 →
      read_data r hdr f n = frame_data_read r hdr.frame_data ((f + n : Nat) : Int)) ∧
    (∀ (r : Reader) (fd : Nat) (sim : Int) (f g n : Nat),
      toI16 n < sim →
      sa_limb_data r fd sim f n = sa_frame_data r fd 0 n ∧
      sa_limb_data r fd sim f n = sa_limb_data r fd sim g n) ∧
    (∀ (r : Reader) (fd : Nat) (sim : Int) (f n : Nat),
      sim ≤ toI16 n →
      sa_limb_data r fd sim f n = RomReader.read_i16 r (addr_add fd (2 * ((f + n : Nat) : Int)))) ∧
    (∀ (r : Reader) (hdr : AnimationHeaderRec) (f lc : Nat) (jis : List JointIndexRec)
      (out : List (Nat × Int × Int × Int)),
      r.read_slice jointIndexDecoder hdr.joint_indicies (lc + 1) = .ok jis →
      for_each_frame_data r hdr f lc = .ok out →
      out.length = lc ∧
      (∀ k : Nat, k < lc →
        ∃ ji x y z, jis[k + 1]? = some ji ∧
          read_data r hdr f ji.x = .ok x ∧ read_data r hdr f ji.y = .ok y ∧
          read_data r hdr f ji.z = .ok z ∧ out[k]? = some (k, x, y, z))) ∧
    (∀ (r : Reader) (fd : Nat) (sim : Int) (jis : List JointIndexRec) (f : Nat)
      (out : List (Int × Int × Int)),
      sa_frame_joints r fd sim jis f = .ok out → out.length = jis.length - 1) := by
  refine ⟨?_, ?_, ?_, ?_, ?_, ?_, ?_⟩
  · intro r hdr f g n h
    unfold read_data
    rw [if_neg (by omega), if_neg (by omega)]
  · intro r hdr f n h h15
    unfold read_data
    rw [if_neg (by omega), toI16_small n h15]
  · intro r hdr f n h h15
    unfold read_data
    rw [if_pos (by omega), toI16_small n (by omega), toI16_small f (by omega)]
    rw [show (f : Int) + (n : Int) = ((f + n : Nat) : Int) by push_cast; ring]
    rw [wrapI16_small _ (by positivity) (by exact_mod_cast h15)]
  · intro r fd sim f g n h
    unfold sa_limb_data
    rw [if_neg (by omega), if_neg (by omega)]
    exact ⟨rfl, rfl⟩
  · intro r fd sim f n h
    unfold sa_limb_data sa_frame_data
    rw [if_pos h]
    norm_num
  · intro r hdr f lc jis out hjis hout
    unfold for_each_frame_data at hout
    rw [hjis] at hout
    obtain ⟨hlen, helem⟩ := mapM_ok _ _ _ hout
    refine ⟨by simp [hlen], ?_⟩
    intro k hk
    obtain ⟨b, hb, hbody⟩ := helem k k (by simp [List.getElem?_range, hk])
    cases hji : jis[k + 1]? with
    | none => rw [hji] at hbody; simp at hbody
    | some ji =>
      rw [hji] at hbody
      dsimp only at hbody
      cases hx : read_data r hdr f ji.x with
      | ok x =>
        rw [hx] at hbody
        simp only [RustResult.bind_ok] at hbody
        cases hy : read_data r hdr f ji.y with
        | ok y =>
          rw [hy] at hbody
          simp only [RustResult.bind_ok] at hbody
          cases hz : read_data r hdr f ji.z with
          | ok z =>
            rw [hz] at hbody
            simp only [RustResult.bind_ok, RustResult.pure_eq, RustResult.ok.injEq] at hbody
            exact ⟨ji, x, y, z, rfl, hx, hy, hz, by rw [hb, hbody]⟩
          | error e => rw [hz] at hbody; simp at hbody
          | panicked => rw [hz] at hbody; simp at hbody
          | diverged => rw [hz] at hbody; simp at hbody
        | error e => rw [hy] at hbody; simp at hbody
        | panicked => rw [hy] at hbody; simp at hbody
        | diverged => rw [hy] at hbody; simp at hbody
      | error e => rw [hx] at hbody; simp at hbody
      | panicked => rw [hx] at hbody; simp at hbody
      | diverged => rw [hx] at hbody; simp at hbody
  · intro r fd sim jis f out hout
    unfold sa_frame_joints at hout
    cases hm : jis.mapM (fun (ji : JointIndexRec) => do
        let x ← sa_limb_data r fd sim f ji.x
        let y ← sa_limb_data r fd sim f ji.y
        let z ← sa_limb_data r fd sim f ji.z
        pure (x, y, z)) with
    | ok res =>
      rw [hm] at hout
      simp only [RustResult.map, RustResult.ok.injEq] at hout
      subst hout
      obtain ⟨hlen, _⟩ := mapM_ok _ _ _ hm
      simp [hlen]
    | error e => rw [hm] at hout; simp [RustResult.map] at hout
    | panicked => rw [hm] at hout; simp [RustResult.map] at hout
    | diverged => rw [hm] at hout; simp [RustResult.map] at hout

theorem joint_index_resolution_witness :
    read_data
      (Reader.new.set_segment 0
        (some [0, 0, 0, 0, 0, 0, 0, 0, 0, 1, 0, 2, 0, 9, 0, 8, 0, 7]))
      ⟨1, 12, 0, 1⟩ 5 0 =
    read_data
      (Reader.new.set_segment 0
        (some [0, 0, 0, 0, 0, 0, 0, 0, 0, 1, 0, 2, 0, 9, 0, 8, 0, 7]))
      ⟨1, 12, 0, 1⟩ 50 0 ∧
    read_data
      (Reader.new.set_segment 0
        (some [0, 0, 0, 0, 0, 0, 0, 0, 0, 1, 0, 2, 0, 9, 0, 8, 0, 7]))
      ⟨1, 12, 0, 0⟩ 0 1 =
    frame_data_read
      (Reader.new.set_segment 0
        (some [0, 0, 0, 0, 0, 0, 0, 0, 0, 1, 0, 2, 0, 9, 0, 8, 0, 7]))
      12 ((0 + 1 : Nat) : Int) ∧
    ([] : List (Int × Int × Int)).length = [(⟨0, 0, 0⟩ : JointIndexRec)].length - 1 := by
  refine ⟨?_, ?_, ?_⟩
  · exact joint_index_resolution.1
      (Reader.new.set_segment 0
        (some [0, 0, 0, 0, 0, 0, 0, 0, 0, 1, 0, 2, 0, 9, 0, 8, 0, 7]))
      ⟨1, 12, 0, 1⟩ 5 50 0 (by decide)
  · exact joint_index_resolution.2.2.1
      (Reader.new.set_segment 0
        (some [0, 0, 0, 0, 0, 0, 0, 0, 0, 1, 0, 2, 0, 9, 0, 8, 0, 7]))
      ⟨1, 12, 0, 0⟩ 0 1 (by decide) (by decide)
  · exact joint_index_resolution.2.2.2.2.2.2
      (Reader.new.set_segment 0
        (some [0, 0, 0, 0, 0, 0, 0, 0, 0, 1, 0, 2, 0, 9, 0, 8, 0, 7]))
      0 0 [⟨0, 0, 0⟩] 0 [] (by decide)

/-- Claim C6 counterexample: with the frame-data table at address 0 of
segment 0 and `static_index_max = 0`, `skeleton_animation.rs`'s
`read_data` does not read `frame_data[f + n]` for dynamic components
whose `i16` arithmetic overflows. At frame 0 the table index
`n = 0x8000` is reinterpreted as the signed value -32768, so `read_data`
dereferences address 0xFFFF0000 (segment 15, which is unset) instead of
`frame_data[f + n]` at byte offset 0x10000. And even for `n = 32700`
below `0x8000`, at frame `f = 200` the sum `f + n = 32900` wraps in
`i16` to -32636, so `read_data` again dereferences an unset high segment
while `frame_data[f + n]` lies at byte offset 65800 — both instances
refute the claim's unconditional "reads frame_data[f + n]", and the
second forces the amended guard `f + n < 0x8000` rather than merely
`n < 0x8000`. -/
theorem joint_index_resolution_counterexample :
    read_data (Reader.new.set_segment 0 (some [1, 2, 3, 4])) ⟨10, 0, 0, 0⟩ 0 32768 =
      .error (.segmentUnset 15) ∧
    frame_data_read (Reader.new.set_segment 0 (some [1, 2, 3, 4])) 0
      ((0 + 32768 : Nat) : Int) = .panicked ∧
    read_data (Reader.new.set_segment 0 (some [1, 2, 3, 4])) ⟨10, 0, 0, 0⟩ 200 32700 =
      .error (.segmentUnset 15) ∧
    frame_data_read (Reader.new.set_segment 0 (some [1, 2, 3, 4])) 0
      ((200 + 32700 : Nat) : Int) = .panicked := by
  decide

/-! ## Claim C7 -/

/-- Claim C7 (amended): whenever `build_node_hierarchy` (`skeleton.rs`)
completes — i.e. every sibling walk stays in bounds and terminates — it
produces one children list per limb: for a limb whose `child` field is
`0xFF` the list is empty (no children assigned through it), and
otherwise it is exactly the child followed by the limbs reached from it
by sibling links until `0xFF`, so all of them receive this limb as
parent; a limb not reached through any such chain appears in no
children list and hence has no parent. The sibling walk itself visits
`cur`, stops when `cur`'s sibling is `0xFF`, and otherwise continues at
the sibling. (The `skin/gltf.rs` parent-assignment variant can panic on
in-bounds inputs — see the counterexample — so the claim's "runs without
failure for every limb list with in-bounds indices" is restricted to
the successful-completion hypothesis.) -/
theorem node_hierarchy (limbs : List SkinLimbRec) (fuel : Nat) (out : List (List Nat)) :
    (build_node_hierarchy limbs fuel = .ok out →
      out.length = limbs.length ∧
      (∀ (i : Nat) (l : SkinLimbRec), limbs[i]? = some l →
        (l.child = 0xFF → out[i]? = some []) ∧
        (l.child ≠ 0xFF → ∃ ch, sibling_chain limbs l.child fuel = .ok ch ∧
          out[i]? = some ch)) ∧
      (∀ j : Nat,
        (∀ (i : Nat) (l : SkinLimbRec), limbs[i]? = some l → l.child ≠ 0xFF →
          ∀ ch, sibling_chain limbs l.child fuel = .ok ch → j ∉ ch) →
        ∀ (i : Nat) (cl : List Nat), out[i]? = some cl → j ∉ cl)) ∧
    (∀ (cur f2 : Nat) (ch : List Nat) (l : SkinLimbRec),
      sibling_chain limbs cur (f2 + 1) = .ok ch → limbs[cur]? = some l →
      ch.head? = some cur ∧
      (l.sibling = 0xFF → ch = [cur]) ∧
      (l.sibling ≠ 0xFF → ∃ rest, sibling_chain limbs l.sibling f2 = .ok rest ∧
        ch = cur :: rest)) := by
  constructor
  · intro h
    unfold build_node_hierarchy at h
    obtain ⟨hlen, helem⟩ := mapM_ok _ _ _ h
    have hlen2 : out.length = limbs.length := by simpa using hlen
    refine ⟨hlen2, ?_, ?_⟩
    · intro i l hli
      have hi : i < limbs.length := by
        by_contra hge
        rw [List.getElem?_eq_none (by omega)] at hli
        cases hli
      obtain ⟨b, hb, hbody⟩ := helem i i (by simp [List.getElem?_range, hi])
      rw [hli] at hbody
      dsimp only at hbody
      constructor
      · intro hc
        rw [if_pos hc] at hbody
        simp only [RustResult.ok.injEq] at hbody
        rw [hb, hbody]
      · intro hc
        rw [if_neg hc] at hbody
        exact ⟨b, hbody, hb⟩
    · intro j hnr i cl hcl
      have hi : i < out.length := by
        by_contra hge
        rw [List.getElem?_eq_none (by omega)] at hcl
        cases hcl
      have hi2 : i < limbs.length := by omega
      obtain ⟨l, hli⟩ : ∃ l, limbs[i]? = some l :=
        ⟨limbs[i], List.getElem?_eq_getElem hi2⟩
      obtain ⟨b, hb, hbody⟩ := helem i i (by simp [List.getElem?_range, hi2])
      rw [hli] at hbody
      dsimp only at hbody
      rw [hcl] at hb
      simp only [Option.some.injEq] at hb
      subst hb
      by_cases hc : l.child = 0xFF
      · rw [if_pos hc] at hbody
        simp only [RustResult.ok.injEq] at hbody
        rw [← hbody]
        simp
      · rw [if_neg hc] at hbody
        exact hnr i l hli hc cl hbody
  · intro cur f2 ch l hch hl
    rw [sibling_chain, hl] at hch
    dsimp only at hch
    by_cases hs : l.sibling = 0xFF
    · rw [if_pos hs] at hch
      simp only [RustResult.ok.injEq] at hch
      subst hch
      exact ⟨rfl, fun _ => rfl, fun hne => absurd hs hne⟩
    · rw [if_neg hs] at hch
      cases hrec : sibling_chain limbs l.sibling f2 with
      | ok rest =>
        rw [hrec] at hch
        simp only [RustResult.map, RustResult.ok.injEq] at hch
        subst hch
        exact ⟨rfl, fun heq => absurd heq hs, fun _ => ⟨rest, rfl, rfl⟩⟩
      | error e => rw [hrec] at hch; simp [RustResult.map] at hch
      | panicked => rw [hrec] at hch; simp [RustResult.map] at hch
      | diverged => rw [hrec] at hch; simp [RustResult.map] at hch

theorem node_hierarchy_witness :
    (∃ ch, sibling_chain
        [⟨(0, 0, 0), 1, 255, 0, 0⟩, ⟨(0, 0, 0), 255, 2, 0, 0⟩, ⟨(0, 0, 0), 255, 255, 0, 0⟩]
        1 4 = .ok ch ∧
      ([[1, 2], [], []] : List (List Nat))[0]? = some ch) ∧
    ([1, 2] : List Nat).head? = some 1 := by
  have h := node_hierarchy
    [⟨(0, 0, 0), 1, 255, 0, 0⟩, ⟨(0, 0, 0), 255, 2, 0, 0⟩, ⟨(0, 0, 0), 255, 255, 0, 0⟩]
    4 [[1, 2], [], []]
  refine ⟨((h.1 (by decide)).2.1 0 ⟨(0, 0, 0), 1, 255, 0, 0⟩ (by decide)).2 (by decide), ?_⟩
  exact (h.2 1 3 [1, 2] ⟨(0, 0, 0), 255, 2, 0, 0⟩ (by decide) (by decide)).1

/-- Claim C7 counterexample: a two-limb list with every child and
sibling index in bounds (`0xFF` is the none sentinel; limb 1's sibling
is limb 0, index 0 < 2). The `gltf_from_skeleton` parent-assignment
loop reaches `parents[1].unwrap()` while limb 1 has no parent assigned
and panics — refuting the claim's "the procedure runs without failure
for every limb list in which child and sibling indices are in bounds". -/
theorem node_hierarchy_counterexample :
    gltf_parents [⟨(0, 0, 0), 255, 255, 0, 0⟩, ⟨(0, 0, 0), 255, 0, 0, 0⟩] = .panicked := by
  decide

/-! ## Claim C10 -/

/-- Claim C10: `read_animated_skin_limb` borrows the caller's reader
immutably and installs the serialized synthetic vertex buffer only into
segment `IconItemStatic` (8) of a clone: the caller-visible reader
after the call is exactly the reader before it, the injected clone
agrees with the original on every other segment slot, and the limb's
display list is interpreted against that clone. Limbs processed
afterwards therefore read the original, uninjected segments. -/
theorem animated_limb_reader_isolation (r : Reader) (limb_segment : Nat) :
    ((read_animated_skin_limb r limb_segment).2 = r) ∧
    (∀ r2 : Reader, synth_reader r limb_segment = .ok r2 →
      (∀ s : Nat, s ≠ iconItemStatic → r2.seg_get s = r.seg_get s) ∧
      (∃ db, animated_limb_vtx_buffer r limb_segment = .ok db ∧
        r2 = r.set_segment iconItemStatic (some (db.2.flatMap VtxRec.to_bytes)))) ∧
    (∀ (r2 : Reader) (db : SkinAnimatedLimbDataRec × List VtxRec) (bs : List Nat),
      animated_limb_vtx_buffer r limb_segment = .ok db →
      synth_reader r limb_segment = .ok r2 →
      r2.slice_from db.1.dlist = .ok bs →
      (read_animated_skin_limb r limb_segment).1 =
        (run_dlist r2 (Mesh.empty, 0) bs).map (fun acc => acc.1)) := by
  refine ⟨rfl, ?_, ?_⟩
  · intro r2 h
    unfold synth_reader at h
    cases hdb : animated_limb_vtx_buffer r limb_segment with
    | ok db =>
      rw [hdb] at h
      simp only [RustResult.map, RustResult.ok.injEq] at h
      subst h
      refine ⟨?_, db, rfl, rfl⟩
      intro s hs
      have hne : iconItemStatic ≠ s := fun h => hs h.symm
      simp [Reader.set_segment, Reader.seg_get, List.getD, List.getElem?_set, hne]
    | error e => rw [hdb] at h; simp [RustResult.map] at h
    | panicked => rw [hdb] at h; simp [RustResult.map] at h
    | diverged => rw [hdb] at h; simp [RustResult.map] at h
  · intro r2 db bs hdb hsynth hbs
    unfold read_animated_skin_limb
    rw [hsynth, hdb]
    dsimp only
    rw [hbs]

theorem animated_limb_reader_isolation_witness :
    (read_animated_skin_limb
      (Reader.new.set_segment 6
        (some [0, 0, 0, 0, 6, 0, 0, 0, 6, 0, 0, 16, 0, 0, 0, 0, 0xDF, 0, 0, 0, 0, 0, 0, 0]))
      0x06000000).2 =
      Reader.new.set_segment 6
        (some [0, 0, 0, 0, 6, 0, 0, 0, 6, 0, 0, 16, 0, 0, 0, 0, 0xDF, 0, 0, 0, 0, 0, 0, 0]) ∧
    ((Reader.new.set_segment 6
        (some [0, 0, 0, 0, 6, 0, 0, 0, 6, 0, 0, 16, 0, 0, 0, 0, 0xDF, 0, 0, 0, 0, 0, 0, 0])).set_segment
        8 (some [])).seg_get 6 =
      (Reader.new.set_segment 6
        (some [0, 0, 0, 0, 6, 0, 0, 0, 6, 0, 0, 16, 0, 0, 0, 0, 0xDF, 0, 0, 0, 0, 0, 0, 0])).seg_get
        6 ∧
    (read_animated_skin_limb
      (Reader.new.set_segment 6
        (some [0, 0, 0, 0, 6, 0, 0, 0, 6, 0, 0, 16, 0, 0, 0, 0, 0xDF, 0, 0, 0, 0, 0, 0, 0]))
      0x06000000).1 = .ok Mesh.empty := by
  have h := animated_limb_reader_isolation
    (Reader.new.set_segment 6
      (some [0, 0, 0, 0, 6, 0, 0, 0, 6, 0, 0, 16, 0, 0, 0, 0, 0xDF, 0, 0, 0, 0, 0, 0, 0]))
    0x06000000
  refine ⟨h.1, ?_, ?_⟩
  · exact (h.2.1
      ((Reader.new.set_segment 6
        (some [0, 0, 0, 0, 6, 0, 0, 0, 6, 0, 0, 16, 0, 0, 0, 0, 0xDF, 0, 0, 0, 0, 0, 0, 0])).set_segment
        8 (some [])) (by decide)).1 6 (by decide)
  · have h3 := h.2.2
      ((Reader.new.set_segment 6
        (some [0, 0, 0, 0, 6, 0, 0, 0, 6, 0, 0, 16, 0, 0, 0, 0, 0xDF, 0, 0, 0, 0, 0, 0, 0])).set_segment
        8 (some []))
      (⟨0, 0, 0x06000000, 0x06000010⟩, []) [0xDF, 0, 0, 0, 0, 0, 0, 0]
      (by decide) (by decide) (by decide)
    rw [h3]
    decide

end Armos
